import Mathlib

/-!
# Intel SCH legacy GPIO controller: `drivers/gpio/gpio-sch.c`

A shallow embedding of the driver's register arithmetic, single-bit port
accessors, GPIO chip operations, interrupt demultiplexer, wake bookkeeping and
suspend/resume context handling, followed by theorems about them.

Conventions of the embedding:

* C `unsigned` values are natural numbers; every operation that can wrap is
  written with an explicit `% 2 ^ 32` (or `% 2 ^ 16` for `unsigned short`,
  `% 256` for `u8`).
* The I/O port space is a function from port numbers to stored bytes together
  with a log of the writes and interrupt notifications the driver performed.
  A port is either plain storage or a write-one-to-clear latch; which ports
  are latches is a parameter, so the same code can be run over plain byte
  memory or over hardware whose status register GTS is write-one-to-clear.
* Spin locks and interrupt masking do not change any value computed by the
  sequential code and are left out.
-/

namespace GpioSch

/-! ## Constants -/

/-- Register base `GEN` (enable). -/
def GEN : Nat := 0x00
/-- Register base `GIO` (direction, 1 = input). -/
def GIO : Nat := 0x04
/-- Register base `GLV` (level). -/
def GLV : Nat := 0x08
/-- Register base `GTPE` (rising-edge trigger enable). -/
def GTPE : Nat := 0x0C
/-- Register base `GTNE` (falling-edge trigger enable). -/
def GTNE : Nat := 0x10
/-- Register base `GGPE` (group enable). -/
def GGPE : Nat := 0x14
/-- Register base `GSMI` (SMI routing). -/
def GSMI : Nat := 0x18
/-- Register base `GTS` (trigger status). -/
def GTS : Nat := 0x1C
/-- Register base `GNMIEN` (core-well NMI enable). -/
def GNMIEN : Nat := 0x40
/-- Register base `RGNMIEN` (resume-well NMI enable). -/
def RGNMIEN : Nat := 0x44

/-- Capacity of the wake bitmap (`#define MAX_GPIO 64`). -/
def MAX_GPIO : Nat := 64

/-- The errno value `EFAULT` of `<linux/errno.h>`. -/
def EFAULT : Int := 14
/-- The errno value `EINVAL` of `<linux/errno.h>`. -/
def EINVAL : Int := 22
/-- The errno value `ENODEV` of `<linux/errno.h>`. -/
def ENODEV : Int := 19

/-- The trigger type `IRQ_TYPE_NONE` of `<linux/irq.h>`. -/
def IRQ_TYPE_NONE : Nat := 0
/-- The trigger type `IRQ_TYPE_EDGE_RISING` of `<linux/irq.h>`. -/
def IRQ_TYPE_EDGE_RISING : Nat := 1
/-- The trigger type `IRQ_TYPE_EDGE_FALLING` of `<linux/irq.h>`. -/
def IRQ_TYPE_EDGE_FALLING : Nat := 2
/-- The trigger type `IRQ_TYPE_EDGE_BOTH` of `<linux/irq.h>`. -/
def IRQ_TYPE_EDGE_BOTH : Nat := 3

/-- The `irqreturn_t` value `IRQ_NONE`. -/
def IRQ_NONE : Int := 0
/-- The `irqreturn_t` value `IRQ_HANDLED`. -/
def IRQ_HANDLED : Int := 1

/-- The kernel's `BIT(n)`, that is `1UL << n`. -/
def BIT (n : Nat) : Nat := 1 <<< n

/-! ## Driver data -/

/-- The cached register context `struct sch_gpio_context`. -/
structure sch_gpio_context where
  gen : Nat
  gio : Nat
  glvl : Nat
  gsmi : Nat
  gnmien : Nat
  gtpe : Nat
  gtne : Nat
  rgtpe : Nat
  rgtne : Nat
  deriving DecidableEq

/-- The driver instance `struct sch_gpio`; `ngpio` is `chip.ngpio` and
`wake_irqs` is the `MAX_GPIO`-bit bitmap, bit `n` standing for pin `n`. -/
structure sch_gpio where
  irq_num : Int
  irq_desc_base : Int
  irq_support : Bool
  wake_irqs : Nat
  context : sch_gpio_context
  ngpio : Nat
  iobase : Nat
  core_base : Nat
  resume_base : Nat
  deriving DecidableEq

/-- The part of `struct irq_data` the driver reads: the interrupt number. -/
structure irq_data where
  irq : Nat
  deriving DecidableEq

/-- The zero-filled instance returned by `devm_kzalloc` in `sch_gpio_probe`. -/
def devm_kzalloc : sch_gpio :=
  { irq_num := 0, irq_desc_base := 0, irq_support := false, wake_irqs := 0,
    context := ⟨0, 0, 0, 0, 0, 0, 0, 0, 0⟩,
    ngpio := 0, iobase := 0, core_base := 0, resume_base := 0 }

/-- The invariant of a controller: `resume_base ≤ ngpio ≤ MAX_GPIO`. -/
def controller_inv (sch : sch_gpio) : Prop :=
  sch.resume_base ≤ sch.ngpio ∧ sch.ngpio ≤ MAX_GPIO

instance (sch : sch_gpio) : Decidable (controller_inv sch) := by
  unfold controller_inv; infer_instance

/-! ## Port space -/

/-- What the driver does to the outside world, in program order. -/
inductive Event where
  | outb (value port : Nat)
  | outl (value port : Nat)
  | irq (n : Int)
  deriving DecidableEq

/-- The I/O port space: the byte stored at each port and the log of events. -/
structure Ports where
  mem : Nat → Nat
  log : List Event

/-- Every port is plain byte storage. -/
def plain : Nat → Bool := fun _ => false

/-- The status registers are write-one-to-clear latches: the four bytes of
`GTS` in the core well and the four bytes of `GTS + 0x20` in the resume well;
every other port is plain storage. -/
def gts_w1c (iobase : Nat) : Nat → Bool := fun p =>
  (decide (iobase + GTS ≤ p) && decide (p < iobase + GTS + 4)) ||
  (decide (iobase + GTS + 0x20 ≤ p) && decide (p < iobase + GTS + 0x20 + 4))

/-- Port read `inb(port)`: the stored byte. -/
def inb (s : Ports) (port : Nat) : Nat := s.mem port % 256

/-- The byte a port holds after `value` has been written to it: on a latch the
bits written as 1 are cleared and the others kept, on plain storage the byte
written is stored. -/
def store (w1c : Nat → Bool) (value port : Nat) (mem : Nat → Nat) : Nat → Nat :=
  fun p =>
    if p = port then
      if w1c port then (mem p % 256) &&& (255 ^^^ (value % 256)) else value % 256
    else mem p

/-- Port write `outb(value, port)`. -/
def outb (w1c : Nat → Bool) (value port : Nat) (s : Ports) : Ports :=
  { mem := store w1c value port s.mem
    log := s.log ++ [Event.outb (value % 256) port] }

/-- Port read `inl(port)`: four consecutive bytes, little endian. -/
def inl (s : Ports) (port : Nat) : Nat :=
  inb s port + 256 * inb s (port + 1) + 65536 * inb s (port + 2)
    + 16777216 * inb s (port + 3)

/-- Port write `outl(value, port)`: four consecutive bytes, little endian. -/
def outl (w1c : Nat → Bool) (value port : Nat) (s : Ports) : Ports :=
  { mem := store w1c (value / 16777216) (port + 3)
            (store w1c (value / 65536) (port + 2)
              (store w1c (value / 256) (port + 1)
                (store w1c value port s.mem)))
    log := s.log ++ [Event.outl (value % 2 ^ 32) port] }

/-- The call `generic_handle_irq(n)`: the notification is recorded; what the
flow handler behind it does is outside the driver. -/
def generic_handle_irq (n : Int) (s : Ports) : Ports :=
  { s with log := s.log ++ [Event.irq n] }

/-- The port writes of a log. -/
def port_writes (l : List Event) : List Event :=
  l.filter fun e => match e with
    | Event.irq _ => false
    | _ => true

/-- The interrupt numbers notified in a log. -/
def notified (l : List Event) : List Int :=
  l.filterMap fun e => match e with
    | Event.irq n => some n
    | _ => none

/-! ## Register arithmetic -/

/-- Byte offset of the register byte holding `gpio` for register base `reg`. -/
def sch_gpio_offset (sch : sch_gpio) (gpio reg : Nat) : Nat :=
  if gpio ≥ sch.resume_base then
    ((0 + 0x20) % 2 ^ 32 + reg + (gpio - sch.resume_base) / 8) % 2 ^ 32
  else
    (0 + reg + gpio / 8) % 2 ^ 32

/-- Bit index of `gpio` inside its register byte. -/
def sch_gpio_bit (sch : sch_gpio) (gpio : Nat) : Nat :=
  if gpio ≥ sch.resume_base then (gpio - sch.resume_base) % 8 else gpio % 8

/-- Read one register bit: `!!(inb(iobase + offset) & BIT(bit))`. -/
def sch_gpio_reg_rdbit (sch : sch_gpio) (s : Ports) (gpio reg : Nat) : Int :=
  let offset := sch_gpio_offset sch gpio reg % 2 ^ 16
  let bit := sch_gpio_bit sch gpio % 2 ^ 16
  let curr_val := (inb s (sch.iobase + offset) &&& BIT bit) % 256
  if curr_val ≠ 0 then 1 else 0

/-- Read-modify-write of one register bit: the byte read with the pin's bit
set (`val` non-zero) or cleared is written back to the same port. `~BIT(bit)`
is the complement in `unsigned long`, taken here at 64 bits; only the low byte
reaches the port. -/
def sch_gpio_reg_wrbit (w1c : Nat → Bool) (sch : sch_gpio) (s : Ports)
    (gpio reg : Nat) (val : Int) : Ports :=
  let offset := sch_gpio_offset sch gpio reg % 2 ^ 16
  let bit := sch_gpio_bit sch gpio % 2 ^ 16
  let curr_val := inb s (sch.iobase + offset)
  if val ≠ 0 then
    outb w1c (curr_val ||| BIT bit) (sch.iobase + offset) s
  else
    outb w1c (curr_val &&& ((2 ^ 64 - 1) ^^^ BIT bit)) (sch.iobase + offset) s

/-! ## GPIO chip operations -/

/-- The chip operation `direction_input`. -/
def sch_gpio_direction_in (w1c : Nat → Bool) (sch : sch_gpio) (s : Ports)
    (gpio_num : Nat) : Int × Ports :=
  (0, sch_gpio_reg_wrbit w1c sch s gpio_num GIO 1)

/-- The chip operation `get`. -/
def sch_gpio_get (sch : sch_gpio) (s : Ports) (gpio_num : Nat) : Int :=
  sch_gpio_reg_rdbit sch s gpio_num GLV

/-- The chip operation `set`. -/
def sch_gpio_set (w1c : Nat → Bool) (sch : sch_gpio) (s : Ports)
    (gpio_num : Nat) (val : Int) : Ports :=
  sch_gpio_reg_wrbit w1c sch s gpio_num GLV val

/-- The chip operation `direction_output`: direction first, level second. -/
def sch_gpio_direction_out (w1c : Nat → Bool) (sch : sch_gpio) (s : Ports)
    (gpio_num : Nat) (val : Int) : Int × Ports :=
  let s1 := sch_gpio_reg_wrbit w1c sch s gpio_num GIO 0
  let s2 := sch_gpio_reg_wrbit w1c sch s1 gpio_num GLV val
  (0, s2)

/-! ## Interrupt controller -/

/-- The macro `irq_to_gpio_number()`: `d->irq - sch->irq_desc_base` in
`unsigned int` arithmetic, stored in a `u32`. -/
def irq_to_gpio_number (sch : sch_gpio) (d : irq_data) : Nat :=
  (((d.irq : Int) - sch.irq_desc_base) % 4294967296).toNat

/-- The kernel's `set_bit(nr, addr)` on the wake bitmap. -/
def set_bit (nr : Nat) (addr : Nat) : Nat := addr ||| BIT nr

/-- The kernel's `clear_bit(nr, addr)` on the wake bitmap: `addr & ~BIT(nr)`,
written without a complement as `addr ^ (addr & BIT(nr))`. -/
def clear_bit (nr : Nat) (addr : Nat) : Nat :=
  addr ^^^ (addr &&& BIT nr)

/-- Membership of pin `nr` in a bitmap (`test_bit`). -/
def test_bit (nr : Nat) (addr : Nat) : Bool := addr.testBit nr

/-- The irq-chip operation `irq_set_wake`; `d = none` is the null pointer.
Returns the result code and the driver instance after the call. -/
def sch_gpio_irq_set_wake (sch : sch_gpio) (d : Option irq_data) (on_ : Nat) :
    Int × sch_gpio :=
  match d with
  | none => (-EFAULT, sch)
  | some d =>
    let gpio_num := irq_to_gpio_number sch d
    if gpio_num ≥ MAX_GPIO then (-EFAULT, sch)
    else if gpio_num < sch.resume_base then (-EFAULT, sch)
    else if on_ ≠ 0 then (0, { sch with wake_irqs := set_bit gpio_num sch.wake_irqs })
    else (0, { sch with wake_irqs := clear_bit gpio_num sch.wake_irqs })

/-- A sequence of `irq_set_wake` calls, each on the instance left by the one
before it. -/
def set_wake_calls (sch : sch_gpio) : List (Option irq_data × Nat) → sch_gpio
  | [] => sch
  | (d, on_) :: rest => set_wake_calls (sch_gpio_irq_set_wake sch d on_).2 rest

/-- One iteration of the scan loop of `sch_gpio_irq_handler` for pin `i`,
on the pair (port space, `ret`). -/
def irq_handler_step (w1c : Nat → Bool) (sch : sch_gpio) (st : Ports × Int)
    (i : Nat) : Ports × Int :=
  if sch_gpio_reg_rdbit sch st.1 i GTS ≠ 0 then
    let s1 := sch_gpio_reg_wrbit w1c sch st.1 i GTS 1
    let s2 := generic_handle_irq (sch.irq_desc_base + (i : Int)) s1
    (s2, IRQ_HANDLED)
  else st

/-- The scan loop of `sch_gpio_irq_handler` after its first `k` iterations. -/
def irq_handler_scan (w1c : Nat → Bool) (sch : sch_gpio) (s : Ports) (k : Nat) :
    Ports × Int :=
  (List.range k).foldl (irq_handler_step w1c sch) (s, IRQ_NONE)

/-- The shared-line handler: `for (i = 0; i < ngpio; i++)` over all pins. -/
def sch_gpio_irq_handler (w1c : Nat → Bool) (sch : sch_gpio) (s : Ports) :
    Ports × Int :=
  irq_handler_scan w1c sch s sch.ngpio

/-! ## Suspend and resume -/

/-- The callback `suspend_noirq`: capture the five core-well registers. -/
def sch_gpio_suspend_sys_noirq (sch : sch_gpio) (s : Ports) :
    Int × sch_gpio × Ports :=
  let regs := sch.context
  let regs := { regs with gen := inl s (sch.iobase + GEN) }
  let regs := { regs with gio := inl s (sch.iobase + GIO) }
  let regs := { regs with glvl := inl s (sch.iobase + GLV) }
  let regs := { regs with gsmi := inl s (sch.iobase + GSMI) }
  let regs := { regs with gnmien := inl s (sch.iobase + GNMIEN) }
  (0, { sch with context := regs }, s)

/-- The callback `resume_noirq`: write the cached context back. -/
def sch_gpio_resume_sys_noirq (w1c : Nat → Bool) (sch : sch_gpio) (s : Ports) :
    Int × sch_gpio × Ports :=
  let regs := sch.context
  let s := outl w1c regs.gen (sch.iobase + GEN) s
  let s := outl w1c regs.gio (sch.iobase + GIO) s
  let s := outl w1c regs.glvl (sch.iobase + GLV) s
  let s := outl w1c regs.gsmi (sch.iobase + GSMI) s
  let s := outl w1c regs.gnmien (sch.iobase + GNMIEN) s
  (0, sch, s)

/-! ## Remaining irq-chip operations -/

/-- The port that `sch_gpio_reg_rdbit` and `sch_gpio_reg_wrbit` access for a pin
and a register base: `sch->iobase + offset` with `offset` an `unsigned short`. -/
def reg_port (sch : sch_gpio) (gpio reg : Nat) : Nat :=
  sch.iobase + sch_gpio_offset sch gpio reg % 2 ^ 16

/-- The helper `sch_gpio_enable`: set the pin's bit of `GEN`. -/
def sch_gpio_enable (w1c : Nat → Bool) (sch : sch_gpio) (s : Ports) (gpio : Nat) :
    Ports :=
  sch_gpio_reg_wrbit w1c sch s gpio GEN 1

/-- The irq-chip operation `irq_enable`: set the pin's bit of `GGPE`. -/
def sch_gpio_irq_enable (w1c : Nat → Bool) (sch : sch_gpio) (s : Ports)
    (d : irq_data) : Ports :=
  sch_gpio_reg_wrbit w1c sch s (irq_to_gpio_number sch d) GGPE 1

/-- The irq-chip operation `irq_disable`: clear the pin's bit of `GGPE`. -/
def sch_gpio_irq_disable (w1c : Nat → Bool) (sch : sch_gpio) (s : Ports)
    (d : irq_data) : Ports :=
  sch_gpio_reg_wrbit w1c sch s (irq_to_gpio_number sch d) GGPE 0

/-- The irq-chip operation `irq_ack`: write 1 to the pin's bit of `GTS` through
the read-modify-write accessor. -/
def sch_gpio_irq_ack (w1c : Nat → Bool) (sch : sch_gpio) (s : Ports)
    (d : irq_data) : Ports :=
  sch_gpio_reg_wrbit w1c sch s (irq_to_gpio_number sch d) GTS 1

/-- The irq-chip operation `irq_set_type`: the `switch (type)` over the four
edge types, `-EINVAL` in the default case. -/
def sch_gpio_irq_type (w1c : Nat → Bool) (sch : sch_gpio) (s : Ports)
    (d : irq_data) (type : Nat) : Int × Ports :=
  let gpio_num := irq_to_gpio_number sch d
  if type = IRQ_TYPE_EDGE_RISING then
    let s := sch_gpio_reg_wrbit w1c sch s gpio_num GTPE 1
    let s := sch_gpio_reg_wrbit w1c sch s gpio_num GTNE 0
    (0, s)
  else if type = IRQ_TYPE_EDGE_FALLING then
    let s := sch_gpio_reg_wrbit w1c sch s gpio_num GTNE 1
    let s := sch_gpio_reg_wrbit w1c sch s gpio_num GTPE 0
    (0, s)
  else if type = IRQ_TYPE_EDGE_BOTH then
    let s := sch_gpio_reg_wrbit w1c sch s gpio_num GTPE 1
    let s := sch_gpio_reg_wrbit w1c sch s gpio_num GTNE 1
    (0, s)
  else if type = IRQ_TYPE_NONE then
    let s := sch_gpio_reg_wrbit w1c sch s gpio_num GTPE 0
    let s := sch_gpio_reg_wrbit w1c sch s gpio_num GTNE 0
    (0, s)
  else
    (-EINVAL, s)

/-- The helper `sch_gpio_irq_disable_all`: twelve 32-bit writes, zero to the
trigger, group-enable, SMI and NMI registers of both wells, then all ones to
the two status registers. -/
def sch_gpio_irq_disable_all (w1c : Nat → Bool) (sch : sch_gpio) (s : Ports) :
    Ports :=
  let s := outl w1c 0 (sch.iobase + GTPE) s
  let s := outl w1c 0 (sch.iobase + GTNE) s
  let s := outl w1c 0 (sch.iobase + GGPE) s
  let s := outl w1c 0 (sch.iobase + GSMI) s
  let s := outl w1c 0 (sch.iobase + GNMIEN) s
  let s := outl w1c 0 (sch.iobase + GTPE + 0x20) s
  let s := outl w1c 0 (sch.iobase + GTNE + 0x20) s
  let s := outl w1c 0 (sch.iobase + GGPE + 0x20) s
  let s := outl w1c 0 (sch.iobase + GSMI + 0x20) s
  let s := outl w1c 0 (sch.iobase + RGNMIEN) s
  let s := outl w1c 0xFFFFFFFF (sch.iobase + GTS) s
  let s := outl w1c 0xFFFFFFFF (sch.iobase + GTS + 0x20) s
  s

/-! ## Variant selection of the probe -/

/-- The four device identifiers of `<linux/pci_ids.h>` that the `switch` of
`sch_gpio_probe` names; the header is not part of the driver, so their values
are a parameter. -/
structure pci_device_ids where
  PCI_DEVICE_ID_INTEL_SCH_LPC : Int
  PCI_DEVICE_ID_INTEL_ITC_LPC : Int
  PCI_DEVICE_ID_INTEL_CENTERTON_ILB : Int
  PCI_DEVICE_ID_INTEL_QUARK_X1000_ILB : Int
  deriving DecidableEq

/-- Case labels of one `switch` are pairwise different. -/
def case_labels_distinct (ids : pci_device_ids) : Prop :=
  ids.PCI_DEVICE_ID_INTEL_SCH_LPC ≠ ids.PCI_DEVICE_ID_INTEL_ITC_LPC
  ∧ ids.PCI_DEVICE_ID_INTEL_SCH_LPC ≠ ids.PCI_DEVICE_ID_INTEL_CENTERTON_ILB
  ∧ ids.PCI_DEVICE_ID_INTEL_SCH_LPC ≠ ids.PCI_DEVICE_ID_INTEL_QUARK_X1000_ILB
  ∧ ids.PCI_DEVICE_ID_INTEL_ITC_LPC ≠ ids.PCI_DEVICE_ID_INTEL_CENTERTON_ILB
  ∧ ids.PCI_DEVICE_ID_INTEL_ITC_LPC ≠ ids.PCI_DEVICE_ID_INTEL_QUARK_X1000_ILB
  ∧ ids.PCI_DEVICE_ID_INTEL_CENTERTON_ILB ≠ ids.PCI_DEVICE_ID_INTEL_QUARK_X1000_ILB

instance (ids : pci_device_ids) : Decidable (case_labels_distinct ids) := by
  unfold case_labels_distinct; infer_instance

/-- The `switch (pdev->id)` of `sch_gpio_probe`: on a recognised identifier the
layout is stored in the instance (and, for the SCH, three pins are enabled
through `sch_gpio_enable`); the default case leaves with `-ENODEV`. -/
def sch_gpio_probe_variant (ids : pci_device_ids) (w1c : Nat → Bool)
    (sch : sch_gpio) (s : Ports) (id : Int) : Except Int (sch_gpio × Ports) :=
  if id = ids.PCI_DEVICE_ID_INTEL_SCH_LPC then
    let sch := { sch with core_base := 0 }
    let sch := { sch with resume_base := 10 }
    let sch := { sch with ngpio := 14 }
    let s := sch_gpio_enable w1c sch s 8
    let s := sch_gpio_enable w1c sch s 9
    let s := sch_gpio_enable w1c sch s 13
    Except.ok (sch, s)
  else if id = ids.PCI_DEVICE_ID_INTEL_ITC_LPC then
    let sch := { sch with core_base := 0 }
    let sch := { sch with resume_base := 5 }
    let sch := { sch with ngpio := 14 }
    Except.ok (sch, s)
  else if id = ids.PCI_DEVICE_ID_INTEL_CENTERTON_ILB then
    let sch := { sch with core_base := 0 }
    let sch := { sch with resume_base := 21 }
    let sch := { sch with ngpio := 30 }
    Except.ok (sch, s)
  else if id = ids.PCI_DEVICE_ID_INTEL_QUARK_X1000_ILB then
    let sch := { sch with core_base := 0 }
    let sch := { sch with resume_base := 2 }
    let sch := { sch with ngpio := 8 }
    Except.ok (sch, s)
  else
    Except.error (-ENODEV)

/-- Port space `s1` reads 0 on the ports in `R` and reads like `s` on every
other port. -/
def cleared_on (R : Nat → Prop) (s s1 : Ports) : Prop :=
  ∀ q, (R q → inb s1 q = 0) ∧ (¬ R q → inb s1 q = inb s q)

/-! ## Example controllers and port states -/

/-- The values the four identifiers have in `<linux/pci_ids.h>`. -/
def linux_pci_ids : pci_device_ids :=
  { PCI_DEVICE_ID_INTEL_SCH_LPC := 0x8119
    PCI_DEVICE_ID_INTEL_ITC_LPC := 0x8186
    PCI_DEVICE_ID_INTEL_CENTERTON_ILB := 0x0c60
    PCI_DEVICE_ID_INTEL_QUARK_X1000_ILB := 0x095e }

/-- A controller with the layout probed for `PCI_DEVICE_ID_INTEL_SCH_LPC`
(`resume_base = 10`, `ngpio = 14`), at I/O base `0x1000`, with interrupt
descriptors allocated from 64 and a zeroed wake bitmap and context. -/
def sch_lpc : sch_gpio :=
  { devm_kzalloc with
    irq_num := 9, irq_desc_base := 64, irq_support := true,
    ngpio := 14, iobase := 0x1000, resume_base := 10 }

/-- Port space of `sch_lpc` in which the status bits of pins 3, 7 (core well,
byte `GTS`) and 11 (resume well, byte `GTS + 0x20`, bit 1) are pending. -/
def pending_3_7_11 : Ports :=
  { mem := fun p =>
      if p = 0x1000 + GTS then 0x88
      else if p = 0x1000 + GTS + 0x20 then 0x02
      else 0
    log := [] }

/-- Port space of `sch_lpc` in which every register byte holds a value derived
from its port number, so that the tracked registers are non-zero. -/
def live : Ports := { mem := fun p => (p * 37 + 11) % 256, log := [] }

/-- The five register bases saved and restored across suspend. -/
def tracked : List Nat := [GEN, GIO, GLV, GSMI, GNMIEN]

/-- A controller with the layout probed for `PCI_DEVICE_ID_INTEL_CENTERTON_ILB`
(`resume_base = 21`, `ngpio = 30`). -/
def sch_centerton : sch_gpio := { sch_lpc with resume_base := 21, ngpio := 30 }

/-- The ten interrupt-routing register bases that `sch_gpio_irq_disable_all`
zeroes: trigger, group-enable, SMI and NMI registers of both wells. -/
def routing : List Nat :=
  [GTPE, GTNE, GGPE, GSMI, GNMIEN,
   GTPE + 0x20, GTNE + 0x20, GGPE + 0x20, GSMI + 0x20, RGNMIEN]

/-- The eight per-pin register bases `GEN` .. `GTS`. -/
def register_bases : List Nat := [GEN, GIO, GLV, GTPE, GTNE, GGPE, GSMI, GTS]

/-- The four layouts (`resume_base`, `ngpio`) that `sch_gpio_probe` configures. -/
def supported_layouts : List (Nat × Nat) := [(10, 14), (5, 14), (21, 30), (2, 8)]

/-- Port space of `sch_lpc` with no status bit pending. -/
def quiet : Ports := { mem := fun _ => 0, log := [] }

/-! ## Register arithmetic: theorems -/

/-- C1: `sch_gpio_offset` is `reg + stride + pin_in_well / 8` and `sch_gpio_bit`
is `pin_in_well % 8`, with `stride = 0`, `pin_in_well = pin` below the resume
boundary and `stride = 0x20`, `pin_in_well = pin - resume_base` from it on. The
sum is taken in `unsigned` arithmetic and is exact whenever it fits in 32 bits,
as it does for every register base of the device. With `resume_base = 10`,
pin 9 gives offset `reg + 1`, bit 1 and pin 12 gives offset `reg + 0x20`,
bit 2. -/
theorem sch_gpio_offset_bit_contract (sch : sch_gpio) (pin reg : Nat) :
    sch_gpio_offset sch pin reg
        = (reg + (if pin < sch.resume_base then 0 else 0x20)
            + (if pin < sch.resume_base then pin else pin - sch.resume_base) / 8)
          % 2 ^ 32
    ∧ sch_gpio_bit sch pin
        = (if pin < sch.resume_base then pin else pin - sch.resume_base) % 8
    ∧ (reg + (if pin < sch.resume_base then 0 else 0x20)
          + (if pin < sch.resume_base then pin else pin - sch.resume_base) / 8
          < 2 ^ 32 →
        sch_gpio_offset sch pin reg
          = reg + (if pin < sch.resume_base then 0 else 0x20)
            + (if pin < sch.resume_base then pin else pin - sch.resume_base) / 8)
    ∧ (sch.resume_base = 10 → reg + 0x20 < 2 ^ 32 →
        sch_gpio_offset sch 9 reg = reg + 1 ∧ sch_gpio_bit sch 9 = 1
        ∧ sch_gpio_offset sch 12 reg = reg + 0x20 ∧ sch_gpio_bit sch 12 = 2) := by
  refine ⟨?_, ?_, ?_, ?_⟩
  · unfold sch_gpio_offset
    by_cases h : pin < sch.resume_base
    · rw [if_neg (by omega), if_pos h, if_pos h]; congr 1; omega
    · rw [if_pos (by omega), if_neg h, if_neg h]; congr 1; omega
  · unfold sch_gpio_bit
    by_cases h : pin < sch.resume_base
    · rw [if_neg (by omega), if_pos h]
    · rw [if_pos (by omega), if_neg h]
  · intro hfit
    unfold sch_gpio_offset
    by_cases h : pin < sch.resume_base
    · rw [if_pos h, if_pos h] at hfit
      rw [if_neg (by omega), if_pos h, if_pos h]; omega
    · rw [if_neg h, if_neg h] at hfit
      rw [if_pos (by omega), if_neg h, if_neg h]; omega
  · intro hrb hreg
    unfold sch_gpio_offset sch_gpio_bit
    rw [hrb]
    refine ⟨?_, ?_, ?_, ?_⟩
    · rw [if_neg (by omega)]; omega
    · rw [if_neg (by omega)]
    · rw [if_pos (by omega)]; omega
    · rw [if_pos (by omega)]

/-- Witness for C1 on the layout `resume_base = 10`: pin 12 with register base
`GTS`, where the sum fits, and pins 9 and 12 with register base `GLV`. -/
theorem sch_gpio_offset_bit_contract_witness :
    sch_gpio_offset sch_lpc 12 GTS = 0x3C
    ∧ (sch_gpio_offset sch_lpc 9 GLV = GLV + 1 ∧ sch_gpio_bit sch_lpc 9 = 1
      ∧ sch_gpio_offset sch_lpc 12 GLV = GLV + 0x20 ∧ sch_gpio_bit sch_lpc 12 = 2) :=
  ⟨(sch_gpio_offset_bit_contract sch_lpc 12 GTS).2.2.1 (by decide),
   (sch_gpio_offset_bit_contract sch_lpc 0 GLV).2.2.2 (by decide) (by decide)⟩

/-! ## Interrupt dispatch: theorems -/

/-- The scan after `k + 1` iterations is one step for pin `k` after the scan
of `k` iterations. -/
theorem irq_handler_scan_succ (w1c : Nat → Bool) (sch : sch_gpio) (s : Ports)
    (k : Nat) :
    irq_handler_scan w1c sch s (k + 1)
      = irq_handler_step w1c sch (irq_handler_scan w1c sch s k) k := by
  unfold irq_handler_scan
  rw [List.range_succ, List.foldl_append]
  rfl

/-- The value `ret` of the scan is `IRQ_HANDLED` exactly when some pin scanned
so far had its status bit set at the moment it was read. -/
theorem irq_handler_scan_handled_iff (w1c : Nat → Bool) (sch : sch_gpio)
    (s : Ports) (k : Nat) :
    (irq_handler_scan w1c sch s k).2 = IRQ_HANDLED ↔
      ∃ i, i < k ∧
        sch_gpio_reg_rdbit sch (irq_handler_scan w1c sch s i).1 i GTS ≠ 0 := by
  induction k with
  | zero =>
    constructor
    · intro h
      have hne : IRQ_NONE ≠ IRQ_HANDLED := by decide
      exact absurd h hne
    · rintro ⟨i, hi, _⟩
      omega
  | succ k ih =>
    rw [irq_handler_scan_succ]
    unfold irq_handler_step
    by_cases hk : sch_gpio_reg_rdbit sch (irq_handler_scan w1c sch s k).1 k GTS ≠ 0
    · rw [if_pos hk]
      exact ⟨fun _ => ⟨k, Nat.lt_succ_self k, hk⟩, fun _ => rfl⟩
    · rw [if_neg hk, ih]
      constructor
      · rintro ⟨i, hi, h⟩
        exact ⟨i, Nat.lt_succ_of_lt hi, h⟩
      · rintro ⟨i, hi, h⟩
        rcases Nat.lt_succ_iff_lt_or_eq.mp hi with hlt | heq
        · exact ⟨i, hlt, h⟩
        · subst heq
          exact absurd h hk

/-- The value `ret` of the scan is always `IRQ_NONE` or `IRQ_HANDLED`. -/
theorem irq_handler_scan_ret (w1c : Nat → Bool) (sch : sch_gpio) (s : Ports)
    (k : Nat) :
    (irq_handler_scan w1c sch s k).2 = IRQ_NONE
      ∨ (irq_handler_scan w1c sch s k).2 = IRQ_HANDLED := by
  induction k with
  | zero => exact Or.inl rfl
  | succ k ih =>
    rw [irq_handler_scan_succ]
    unfold irq_handler_step
    split
    · exact Or.inr rfl
    · exact ih

/-- With no status bit set among the first `k` pins, the scan of `k`
iterations changes nothing. -/
theorem irq_handler_scan_quiet (w1c : Nat → Bool) (sch : sch_gpio) (s : Ports)
    (k : Nat) (h : ∀ i, i < k → sch_gpio_reg_rdbit sch s i GTS = 0) :
    irq_handler_scan w1c sch s k = (s, IRQ_NONE) := by
  induction k with
  | zero => rfl
  | succ k ih =>
    rw [irq_handler_scan_succ, ih (fun i hi => h i (Nat.lt_succ_of_lt hi))]
    unfold irq_handler_step
    rw [if_neg (by simpa using h k (Nat.lt_succ_self k))]

set_option maxRecDepth 100000 in
/-- C2, evaluated on the code: on the layout `ngpio = 14`, `resume_base = 10`
with the status register write-one-to-clear and pins 3, 7 and 11 pending on
entry, one run of `sch_gpio_irq_handler` notifies pins 3 and 11 only. The
read-modify-write acknowledge of pin 3 writes back the whole status byte and so
clears the pending bit of pin 7, which is then skipped by the scan. -/
theorem irq_handler_drops_pin_sharing_status_byte :
    sch_gpio_reg_rdbit sch_lpc pending_3_7_11 3 GTS = 1
    ∧ sch_gpio_reg_rdbit sch_lpc pending_3_7_11 7 GTS = 1
    ∧ sch_gpio_reg_rdbit sch_lpc pending_3_7_11 11 GTS = 1
    ∧ notified (sch_gpio_irq_handler (gts_w1c sch_lpc.iobase) sch_lpc
        pending_3_7_11).1.log
        = [sch_lpc.irq_desc_base + 3, sch_lpc.irq_desc_base + 11]
    ∧ port_writes (sch_gpio_irq_handler (gts_w1c sch_lpc.iobase) sch_lpc
        pending_3_7_11).1.log
        = [Event.outb 0x88 (0x1000 + GTS), Event.outb 0x02 (0x1000 + GTS + 0x20)]
    ∧ sch_gpio_reg_rdbit sch_lpc
        (sch_gpio_irq_handler (gts_w1c sch_lpc.iobase) sch_lpc pending_3_7_11).1
        7 GTS = 0
    ∧ (sch_gpio_irq_handler (gts_w1c sch_lpc.iobase) sch_lpc pending_3_7_11).2
        = IRQ_HANDLED := by
  refine ⟨?_, ?_, ?_, ?_, ?_, ?_, ?_⟩ <;> decide

/-- C3: `sch_gpio_irq_handler` returns `IRQ_HANDLED` exactly when some pin
below `ngpio` had its status bit set at the moment the scan read it, and
`IRQ_NONE` otherwise; when no status bit of a pin below `ngpio` is set on entry
it returns `IRQ_NONE` and leaves the event log (no port write, no
notification) and the ports as they were. -/
theorem sch_gpio_irq_handler_return (w1c : Nat → Bool) (sch : sch_gpio)
    (s : Ports) :
    ((sch_gpio_irq_handler w1c sch s).2 = IRQ_HANDLED ↔
        ∃ i, i < sch.ngpio ∧
          sch_gpio_reg_rdbit sch (irq_handler_scan w1c sch s i).1 i GTS ≠ 0)
    ∧ ((sch_gpio_irq_handler w1c sch s).2 = IRQ_NONE
        ∨ (sch_gpio_irq_handler w1c sch s).2 = IRQ_HANDLED)
    ∧ ((∀ i, i < sch.ngpio → sch_gpio_reg_rdbit sch s i GTS = 0) →
        (sch_gpio_irq_handler w1c sch s).2 = IRQ_NONE
        ∧ (sch_gpio_irq_handler w1c sch s).1.log = s.log
        ∧ (sch_gpio_irq_handler w1c sch s).1.mem = s.mem) := by
  refine ⟨irq_handler_scan_handled_iff w1c sch s sch.ngpio,
    irq_handler_scan_ret w1c sch s sch.ngpio, ?_⟩
  intro h
  unfold sch_gpio_irq_handler
  rw [irq_handler_scan_quiet w1c sch s sch.ngpio h]
  exact ⟨rfl, rfl, rfl⟩

set_option maxRecDepth 100000 in
/-- Witness for C3: with pin 3 pending the handler of `sch_lpc` returns
`IRQ_HANDLED`; with nothing pending it returns `IRQ_NONE` and logs nothing. -/
theorem sch_gpio_irq_handler_return_witness :
    (sch_gpio_irq_handler (gts_w1c 0x1000) sch_lpc pending_3_7_11).2 = IRQ_HANDLED
    ∧ ((sch_gpio_irq_handler (gts_w1c 0x1000) sch_lpc quiet).2 = IRQ_NONE
      ∧ (sch_gpio_irq_handler (gts_w1c 0x1000) sch_lpc quiet).1.log = []
      ∧ (sch_gpio_irq_handler (gts_w1c 0x1000) sch_lpc quiet).1.mem = quiet.mem) :=
  ⟨(sch_gpio_irq_handler_return (gts_w1c 0x1000) sch_lpc pending_3_7_11).1.mpr
      ⟨3, by decide, by decide⟩,
   (sch_gpio_irq_handler_return (gts_w1c 0x1000) sch_lpc quiet).2.2 (by decide)⟩

/-! ## Wake bookkeeping: theorems -/

/-- Membership after `set_bit`: pin `nr` is in, every other pin as before. -/
theorem test_bit_set_bit (nr addr q : Nat) :
    test_bit q (set_bit nr addr) = (test_bit q addr || decide (nr = q)) := by
  unfold test_bit set_bit BIT
  rw [Nat.one_shiftLeft, Nat.testBit_or, Nat.testBit_two_pow]

/-- Membership after `clear_bit`: pin `nr` is out, every other pin as before. -/
theorem test_bit_clear_bit (nr addr q : Nat) :
    test_bit q (clear_bit nr addr) = (test_bit q addr && !decide (nr = q)) := by
  unfold test_bit clear_bit BIT
  rw [Nat.one_shiftLeft, Nat.testBit_xor, Nat.testBit_and, Nat.testBit_two_pow]
  cases Nat.testBit addr q <;> cases decide (nr = q) <;> rfl

/-- Setting a bit twice is setting it once. -/
theorem set_bit_idem (nr addr : Nat) :
    set_bit nr (set_bit nr addr) = set_bit nr addr := by
  apply Nat.eq_of_testBit_eq
  intro i
  have h1 := test_bit_set_bit nr (set_bit nr addr) i
  have h2 := test_bit_set_bit nr addr i
  unfold test_bit at h1 h2
  rw [h1, h2]
  cases Nat.testBit addr i <;> cases decide (nr = i) <;> rfl

/-- Clearing a bit twice is clearing it once. -/
theorem clear_bit_idem (nr addr : Nat) :
    clear_bit nr (clear_bit nr addr) = clear_bit nr addr := by
  apply Nat.eq_of_testBit_eq
  intro i
  have h1 := test_bit_clear_bit nr (clear_bit nr addr) i
  have h2 := test_bit_clear_bit nr addr i
  unfold test_bit at h1 h2
  rw [h1, h2]
  cases Nat.testBit addr i <;> cases decide (nr = i) <;> rfl

/-- The three outcomes of `sch_gpio_irq_set_wake` on a non-null `d`. -/
theorem sch_gpio_irq_set_wake_cases (sch : sch_gpio) (d : irq_data) (on_ : Nat) :
    ((irq_to_gpio_number sch d ≥ MAX_GPIO ∨ irq_to_gpio_number sch d < sch.resume_base)
        ∧ sch_gpio_irq_set_wake sch (some d) on_ = (-EFAULT, sch))
    ∨ (sch.resume_base ≤ irq_to_gpio_number sch d ∧ irq_to_gpio_number sch d < MAX_GPIO
        ∧ on_ ≠ 0
        ∧ sch_gpio_irq_set_wake sch (some d) on_
          = (0, { sch with
                  wake_irqs := set_bit (irq_to_gpio_number sch d) sch.wake_irqs }))
    ∨ (sch.resume_base ≤ irq_to_gpio_number sch d ∧ irq_to_gpio_number sch d < MAX_GPIO
        ∧ on_ = 0
        ∧ sch_gpio_irq_set_wake sch (some d) on_
          = (0, { sch with
                  wake_irqs := clear_bit (irq_to_gpio_number sch d) sch.wake_irqs })) := by
  unfold sch_gpio_irq_set_wake
  simp only []
  by_cases h1 : irq_to_gpio_number sch d ≥ MAX_GPIO
  · left
    rw [if_pos h1]
    exact ⟨Or.inl h1, rfl⟩
  · rw [if_neg h1]
    by_cases h2 : irq_to_gpio_number sch d < sch.resume_base
    · left
      rw [if_pos h2]
      exact ⟨Or.inr h2, rfl⟩
    · rw [if_neg h2]
      right
      by_cases h3 : on_ ≠ 0
      · left
        rw [if_pos h3]
        exact ⟨by omega, by omega, h3, rfl⟩
      · right
        rw [if_neg h3]
        exact ⟨by omega, by omega, by omega, rfl⟩

/-- Counterexample to C4 as stated: on the layout `ngpio = 14`,
`resume_base = 10`, pin 20 is out of range (`20 ≥ ngpio`), yet
`sch_gpio_irq_set_wake` returns 0 and adds pin 20 to the wake bitmap. -/
theorem sch_gpio_irq_set_wake_accepts_pin_20 :
    irq_to_gpio_number sch_lpc ⟨84⟩ = 20 ∧ 20 ≥ sch_lpc.ngpio
    ∧ (sch_gpio_irq_set_wake sch_lpc (some ⟨84⟩) 1).1 = 0
    ∧ test_bit 20 (sch_gpio_irq_set_wake sch_lpc (some ⟨84⟩) 1).2.wake_irqs = true
    ∧ (sch_gpio_irq_set_wake sch_lpc (some ⟨84⟩) 1).2.wake_irqs
        ≠ sch_lpc.wake_irqs := by
  refine ⟨?_, ?_, ?_, ?_, ?_⟩ <;> decide

/-- C4, amended: the range check of `sch_gpio_irq_set_wake` is against
`MAX_GPIO = 64`, the capacity of the wake bitmap. For every pin index
`≥ MAX_GPIO` the call returns `-EFAULT`, whatever `on` is, and leaves the
driver instance, its wake bitmap included, unchanged; a pin with
`resume_base ≤ pin < MAX_GPIO` is accepted with result 0, also when
`pin ≥ ngpio`. -/
theorem sch_gpio_irq_set_wake_range (sch : sch_gpio) (d : irq_data) (on_ : Nat) :
    (irq_to_gpio_number sch d ≥ MAX_GPIO →
        sch_gpio_irq_set_wake sch (some d) on_ = (-EFAULT, sch)
        ∧ (sch_gpio_irq_set_wake sch (some d) on_).1 ≠ 0
        ∧ (sch_gpio_irq_set_wake sch (some d) on_).2.wake_irqs = sch.wake_irqs)
    ∧ (sch.resume_base ≤ irq_to_gpio_number sch d →
        irq_to_gpio_number sch d < MAX_GPIO →
        (sch_gpio_irq_set_wake sch (some d) on_).1 = 0) := by
  constructor
  · intro h
    rcases sch_gpio_irq_set_wake_cases sch d on_ with ⟨_, e⟩ | ⟨_, h2, _⟩ | ⟨_, h2, _⟩
    · rw [e]
      have hne : -EFAULT ≠ 0 := by decide
      exact ⟨rfl, hne, rfl⟩
    · omega
    · omega
  · intro h1 h2
    rcases sch_gpio_irq_set_wake_cases sch d on_ with ⟨h3, _⟩ | ⟨_, _, _, e⟩ | ⟨_, _, _, e⟩
    · omega
    · rw [e]
    · rw [e]

/-- Witness for amended C4: pin 70 of `sch_lpc` is refused, pin 20 accepted. -/
theorem sch_gpio_irq_set_wake_range_witness :
    (sch_gpio_irq_set_wake sch_lpc (some ⟨134⟩) 1 = (-EFAULT, sch_lpc)
      ∧ (sch_gpio_irq_set_wake sch_lpc (some ⟨134⟩) 1).1 ≠ 0
      ∧ (sch_gpio_irq_set_wake sch_lpc (some ⟨134⟩) 1).2.wake_irqs
          = sch_lpc.wake_irqs)
    ∧ (sch_gpio_irq_set_wake sch_lpc (some ⟨84⟩) 0).1 = 0 :=
  ⟨(sch_gpio_irq_set_wake_range sch_lpc ⟨134⟩ 1).1 (by decide),
   (sch_gpio_irq_set_wake_range sch_lpc ⟨84⟩ 0).2 (by decide) (by decide)⟩

/-- C5: on a core-well pin (`pin < resume_base`) `sch_gpio_irq_set_wake`
returns `-EFAULT` for every value of `on`, and the driver instance, its wake
bitmap included, is the same after the call as before. -/
theorem sch_gpio_irq_set_wake_core_well (sch : sch_gpio) (d : irq_data)
    (on_ : Nat) (h : irq_to_gpio_number sch d < sch.resume_base) :
    (sch_gpio_irq_set_wake sch (some d) on_).1 = -EFAULT
    ∧ (sch_gpio_irq_set_wake sch (some d) on_).1 = -14
    ∧ (sch_gpio_irq_set_wake sch (some d) on_).2.wake_irqs = sch.wake_irqs
    ∧ (sch_gpio_irq_set_wake sch (some d) on_).2 = sch := by
  rcases sch_gpio_irq_set_wake_cases sch d on_ with ⟨_, e⟩ | ⟨h2, _⟩ | ⟨h2, _⟩
  · rw [e]
    exact ⟨rfl, rfl, rfl, rfl⟩
  · omega
  · omega

/-- Witness for C5: pin 3 of `sch_lpc` (interrupt 67), `on = 1`. -/
theorem sch_gpio_irq_set_wake_core_well_witness :
    (sch_gpio_irq_set_wake sch_lpc (some ⟨67⟩) 1).1 = -EFAULT
    ∧ (sch_gpio_irq_set_wake sch_lpc (some ⟨67⟩) 1).1 = -14
    ∧ (sch_gpio_irq_set_wake sch_lpc (some ⟨67⟩) 1).2.wake_irqs = sch_lpc.wake_irqs
    ∧ (sch_gpio_irq_set_wake sch_lpc (some ⟨67⟩) 1).2 = sch_lpc :=
  sch_gpio_irq_set_wake_core_well sch_lpc ⟨67⟩ 1 (by decide)

/-- C6: on a resume-well pin (`resume_base ≤ pin < ngpio`, with the controller
invariant `ngpio ≤ MAX_GPIO`) `sch_gpio_irq_set_wake` returns 0, makes the pin
a member of the wake bitmap exactly when `on ≠ 0`, keeps the membership of
every other pin and every other field, and a second identical call gives the
same result and the same instance as the first. -/
theorem sch_gpio_irq_set_wake_resume_well (sch : sch_gpio) (d : irq_data)
    (on_ : Nat) (hinv : controller_inv sch)
    (hlo : sch.resume_base ≤ irq_to_gpio_number sch d)
    (hhi : irq_to_gpio_number sch d < sch.ngpio) :
    (sch_gpio_irq_set_wake sch (some d) on_).1 = 0
    ∧ test_bit (irq_to_gpio_number sch d)
        (sch_gpio_irq_set_wake sch (some d) on_).2.wake_irqs = decide (on_ ≠ 0)
    ∧ (∀ q, q ≠ irq_to_gpio_number sch d →
        test_bit q (sch_gpio_irq_set_wake sch (some d) on_).2.wake_irqs
          = test_bit q sch.wake_irqs)
    ∧ (sch_gpio_irq_set_wake sch (some d) on_).2
        = { sch with wake_irqs := (sch_gpio_irq_set_wake sch (some d) on_).2.wake_irqs }
    ∧ sch_gpio_irq_set_wake (sch_gpio_irq_set_wake sch (some d) on_).2 (some d) on_
        = sch_gpio_irq_set_wake sch (some d) on_ := by
  have h64 : irq_to_gpio_number sch d < MAX_GPIO := Nat.lt_of_lt_of_le hhi hinv.2
  rcases sch_gpio_irq_set_wake_cases sch d on_ with ⟨h1, _⟩ | ⟨_, _, hon, e⟩ | ⟨_, _, hon, e⟩
  · omega
  · refine ⟨by rw [e], ?_, ?_, by rw [e], ?_⟩
    · rw [e]
      simp only [test_bit_set_bit]
      simp [hon]
    · intro q hq
      rw [e]
      simp only [test_bit_set_bit]
      have : decide (irq_to_gpio_number sch d = q) = false := by
        simp only [decide_eq_false_iff_not]
        exact fun hh => hq hh.symm
      rw [this, Bool.or_false]
    · rw [e]
      rcases sch_gpio_irq_set_wake_cases
          { sch with wake_irqs := set_bit (irq_to_gpio_number sch d) sch.wake_irqs }
          d on_ with ⟨h1, _⟩ | ⟨_, _, _, e2⟩ | ⟨_, _, hoff, _⟩
      · exact absurd h1 (by
          show ¬ (irq_to_gpio_number sch d ≥ MAX_GPIO
            ∨ irq_to_gpio_number sch d < sch.resume_base)
          omega)
      · rw [e2]
        have hidem := set_bit_idem (irq_to_gpio_number sch d) sch.wake_irqs
        exact congrArg
          (fun w => ((0 : Int), ({ sch with wake_irqs := w } : sch_gpio))) hidem
      · exact absurd hoff hon
  · refine ⟨by rw [e], ?_, ?_, by rw [e], ?_⟩
    · rw [e]
      simp only [test_bit_clear_bit]
      simp [hon]
    · intro q hq
      rw [e]
      simp only [test_bit_clear_bit]
      have : decide (irq_to_gpio_number sch d = q) = false := by
        simp only [decide_eq_false_iff_not]
        exact fun hh => hq hh.symm
      rw [this, Bool.not_false, Bool.and_true]
    · rw [e]
      rcases sch_gpio_irq_set_wake_cases
          { sch with wake_irqs := clear_bit (irq_to_gpio_number sch d) sch.wake_irqs }
          d on_ with ⟨h1, _⟩ | ⟨_, _, hon2, _⟩ | ⟨_, _, _, e2⟩
      · exact absurd h1 (by
          show ¬ (irq_to_gpio_number sch d ≥ MAX_GPIO
            ∨ irq_to_gpio_number sch d < sch.resume_base)
          omega)
      · exact absurd hon hon2
      · rw [e2]
        have hidem := clear_bit_idem (irq_to_gpio_number sch d) sch.wake_irqs
        exact congrArg
          (fun w => ((0 : Int), ({ sch with wake_irqs := w } : sch_gpio))) hidem

/-- Witness for C6: pin 12 of `sch_lpc` (interrupt 76), `on = 1`. -/
theorem sch_gpio_irq_set_wake_resume_well_witness :
    controller_inv sch_lpc
    ∧ sch_lpc.resume_base ≤ irq_to_gpio_number sch_lpc ⟨76⟩
    ∧ irq_to_gpio_number sch_lpc ⟨76⟩ < sch_lpc.ngpio
    ∧ (sch_gpio_irq_set_wake sch_lpc (some ⟨76⟩) 1).1 = 0
    ∧ test_bit 12 (sch_gpio_irq_set_wake sch_lpc (some ⟨76⟩) 1).2.wake_irqs = true
    ∧ sch_gpio_irq_set_wake (sch_gpio_irq_set_wake sch_lpc (some ⟨76⟩) 1).2
          (some ⟨76⟩) 1
        = sch_gpio_irq_set_wake sch_lpc (some ⟨76⟩) 1 :=
  have h := sch_gpio_irq_set_wake_resume_well sch_lpc ⟨76⟩ 1
    (by decide) (by decide) (by decide)
  ⟨by decide, by decide, by decide, h.1, h.2.1, h.2.2.2.2⟩

/-- The resume boundary is not changed by `sch_gpio_irq_set_wake`. -/
theorem sch_gpio_irq_set_wake_resume_base (sch : sch_gpio) (d : Option irq_data)
    (on_ : Nat) :
    (sch_gpio_irq_set_wake sch d on_).2.resume_base = sch.resume_base := by
  cases d with
  | none => rfl
  | some d =>
    rcases sch_gpio_irq_set_wake_cases sch d on_ with ⟨_, e⟩ | ⟨_, _, _, e⟩ | ⟨_, _, _, e⟩ <;>
      rw [e]

/-- One `sch_gpio_irq_set_wake` call keeps every member of the wake bitmap at
or above the resume boundary and below `MAX_GPIO`. -/
theorem sch_gpio_irq_set_wake_keeps_members (sch : sch_gpio)
    (d : Option irq_data) (on_ : Nat)
    (h : ∀ n, test_bit n sch.wake_irqs = true → sch.resume_base ≤ n ∧ n < MAX_GPIO) :
    ∀ n, test_bit n (sch_gpio_irq_set_wake sch d on_).2.wake_irqs = true →
      sch.resume_base ≤ n ∧ n < MAX_GPIO := by
  intro n hn
  cases d with
  | none => exact h n hn
  | some d =>
    rcases sch_gpio_irq_set_wake_cases sch d on_ with
      ⟨_, e⟩ | ⟨hlo, hhi, _, e⟩ | ⟨_, _, _, e⟩
    · rw [e] at hn
      exact h n hn
    · rw [e] at hn
      simp only [test_bit_set_bit, Bool.or_eq_true, decide_eq_true_eq] at hn
      rcases hn with hn | hn
      · exact h n hn
      · subst hn
        exact ⟨hlo, hhi⟩
    · rw [e] at hn
      simp only [test_bit_clear_bit, Bool.and_eq_true] at hn
      exact h n hn.1

/-- Any sequence of `sch_gpio_irq_set_wake` calls keeps every member of the
wake bitmap at or above the resume boundary and below `MAX_GPIO`. -/
theorem set_wake_calls_keeps_members (calls : List (Option irq_data × Nat)) :
    ∀ sch : sch_gpio,
      (∀ n, test_bit n sch.wake_irqs = true → sch.resume_base ≤ n ∧ n < MAX_GPIO) →
      ∀ n, test_bit n (set_wake_calls sch calls).wake_irqs = true →
        sch.resume_base ≤ n ∧ n < MAX_GPIO := by
  induction calls with
  | nil =>
    intro sch h n hn
    exact h n hn
  | cons c rest ih =>
    intro sch h n hn
    obtain ⟨d, on_⟩ := c
    have hstep := sch_gpio_irq_set_wake_keeps_members sch d on_ h
    rw [← sch_gpio_irq_set_wake_resume_base sch d on_] at hstep
    have hrest := ih (sch_gpio_irq_set_wake sch d on_).2 hstep n hn
    rw [sch_gpio_irq_set_wake_resume_base sch d on_] at hrest
    exact hrest

/-- C7: starting from the empty wake bitmap of a freshly attached controller,
after any finite sequence of `sch_gpio_irq_set_wake` calls with arbitrary
arguments, every member of `wake_irqs` is at or above `resume_base` and below
`MAX_GPIO = 64`; no core-well pin is ever a member. -/
theorem wake_irqs_only_resume_well (sch : sch_gpio)
    (calls : List (Option irq_data × Nat)) (n : Nat)
    (hfresh : sch.wake_irqs = 0)
    (hmem : test_bit n (set_wake_calls sch calls).wake_irqs = true) :
    sch.resume_base ≤ n ∧ n < 64 := by
  refine set_wake_calls_keeps_members calls sch ?_ n hmem
  intro m hm
  rw [hfresh] at hm
  unfold test_bit at hm
  rw [Nat.zero_testBit] at hm
  exact absurd hm (by decide)

/-- Witness for C7: on `sch_lpc`, after wake requests for pins 12, 3 (refused),
13 and a wake release of pin 12, pin 13 is a member and lies in the resume
well. -/
theorem wake_irqs_only_resume_well_witness :
    sch_lpc.wake_irqs = 0
    ∧ test_bit 13 (set_wake_calls sch_lpc
        [(some ⟨76⟩, 1), (some ⟨67⟩, 1), (some ⟨77⟩, 1), (some ⟨76⟩, 0)]).wake_irqs
        = true
    ∧ sch_lpc.resume_base ≤ 13 ∧ 13 < 64 :=
  ⟨by decide, by decide,
   wake_irqs_only_resume_well sch_lpc
     [(some ⟨76⟩, 1), (some ⟨67⟩, 1), (some ⟨77⟩, 1), (some ⟨76⟩, 0)] 13
     (by decide) (by decide)⟩

/-! ## Suspend and resume: theorems -/

/-- Reading a byte after a 32-bit write to plain ports: the four bytes of the
value, little endian, at the four ports written, and the old byte elsewhere. -/
theorem inb_outl (w1c : Nat → Bool) (value port : Nat) (s : Ports) (q : Nat)
    (h0 : w1c port = false) (h1 : w1c (port + 1) = false)
    (h2 : w1c (port + 2) = false) (h3 : w1c (port + 3) = false) :
    inb (outl w1c value port s) q =
      if q = port then value % 256
      else if q = port + 1 then value / 256 % 256
      else if q = port + 2 then value / 65536 % 256
      else if q = port + 3 then value / 16777216 % 256
      else inb s q := by
  unfold inb outl store
  simp only [h0, h1, h2, h3, Bool.false_eq_true, if_false]
  by_cases e3 : q = port + 3
  · rw [if_pos e3, if_neg (by omega), if_neg (by omega), if_neg (by omega), if_pos e3]
    omega
  · rw [if_neg e3]
    by_cases e2 : q = port + 2
    · rw [if_pos e2, if_neg (by omega), if_neg (by omega), if_pos e2]
      omega
    · rw [if_neg e2]
      by_cases e1 : q = port + 1
      · rw [if_pos e1, if_neg (by omega), if_pos e1]
        omega
      · rw [if_neg e1]
        by_cases e0 : q = port
        · rw [if_pos e0, if_pos e0]
          omega
        · rw [if_neg e0, if_neg e0, if_neg e1, if_neg e2, if_neg e3]

/-- Writing back to plain ports the 32-bit value read from them, into a port
space that reads like the one the value was taken from, changes no byte. -/
theorem inb_outl_inl (w1c : Nat → Bool) (port : Nat) (s0 s : Ports)
    (h0 : w1c port = false) (h1 : w1c (port + 1) = false)
    (h2 : w1c (port + 2) = false) (h3 : w1c (port + 3) = false)
    (hobs : ∀ q, inb s q = inb s0 q) :
    ∀ q, inb (outl w1c (inl s0 port) port s) q = inb s0 q := by
  intro q
  rw [inb_outl w1c _ port s q h0 h1 h2 h3]
  have b0 : inb s0 port < 256 := Nat.mod_lt _ (by decide)
  have b1 : inb s0 (port + 1) < 256 := Nat.mod_lt _ (by decide)
  have b2 : inb s0 (port + 2) < 256 := Nat.mod_lt _ (by decide)
  have b3 : inb s0 (port + 3) < 256 := Nat.mod_lt _ (by decide)
  unfold inl
  split
  · next e => rw [e]; omega
  · split
    · next e => rw [e]; omega
    · split
      · next e => rw [e]; omega
      · split
        · next e => rw [e]; omega
        · exact hobs q

/-- A 32-bit read only depends on the bytes read. -/
theorem inl_congr (s s0 : Ports) (hobs : ∀ q, inb s q = inb s0 q) (port : Nat) :
    inl s port = inl s0 port := by
  unfold inl
  rw [hobs, hobs, hobs, hobs]

/-- After a suspend followed by a resume, with the tracked registers on plain
ports, every port reads as it did before the suspend. -/
theorem inb_resume_suspend (w1c : Nat → Bool) (sch : sch_gpio) (s : Ports)
    (hplain : ∀ reg, reg ∈ tracked → ∀ k, k < 4 → w1c (sch.iobase + reg + k) = false) :
    ∀ q, inb (sch_gpio_resume_sys_noirq w1c (sch_gpio_suspend_sys_noirq sch s).2.1
        (sch_gpio_suspend_sys_noirq sch s).2.2).2.2 q = inb s q := by
  have m0 : GEN ∈ tracked := by decide
  have m1 : GIO ∈ tracked := by decide
  have m2 : GLV ∈ tracked := by decide
  have m3 : GSMI ∈ tracked := by decide
  have m4 : GNMIEN ∈ tracked := by decide
  have k0 : (0 : Nat) < 4 := by decide
  have k1 : (1 : Nat) < 4 := by decide
  have k2 : (2 : Nat) < 4 := by decide
  have k3 : (3 : Nat) < 4 := by decide
  exact inb_outl_inl w1c (sch.iobase + GNMIEN) s _
    (hplain _ m4 0 k0) (hplain _ m4 1 k1) (hplain _ m4 2 k2) (hplain _ m4 3 k3)
    (inb_outl_inl w1c (sch.iobase + GSMI) s _
      (hplain _ m3 0 k0) (hplain _ m3 1 k1) (hplain _ m3 2 k2) (hplain _ m3 3 k3)
      (inb_outl_inl w1c (sch.iobase + GLV) s _
        (hplain _ m2 0 k0) (hplain _ m2 1 k1) (hplain _ m2 2 k2) (hplain _ m2 3 k3)
        (inb_outl_inl w1c (sch.iobase + GIO) s _
          (hplain _ m1 0 k0) (hplain _ m1 1 k1) (hplain _ m1 2 k2) (hplain _ m1 3 k3)
          (inb_outl_inl w1c (sch.iobase + GEN) s _
            (hplain _ m0 0 k0) (hplain _ m0 1 k1) (hplain _ m0 2 k2) (hplain _ m0 3 k3)
            (fun _ => rfl)))))

/-- C8: `sch_gpio_suspend_sys_noirq` followed by `sch_gpio_resume_sys_noirq`,
with no port write in between and the tracked registers on plain ports, leaves
the 32-bit registers at `iobase + GEN`, `+ GIO`, `+ GLV`, `+ GSMI`, `+ GNMIEN`
byte for byte what they were before the suspend (as is every other port), and
both calls return 0; the suspend itself leaves the port space untouched. -/
theorem suspend_resume_round_trip (w1c : Nat → Bool) (sch : sch_gpio) (s : Ports)
    (hplain : ∀ reg, reg ∈ tracked → ∀ k, k < 4 → w1c (sch.iobase + reg + k) = false) :
    (sch_gpio_suspend_sys_noirq sch s).1 = 0
    ∧ (sch_gpio_suspend_sys_noirq sch s).2.2.mem = s.mem
    ∧ (sch_gpio_suspend_sys_noirq sch s).2.2.log = s.log
    ∧ (sch_gpio_resume_sys_noirq w1c (sch_gpio_suspend_sys_noirq sch s).2.1
        (sch_gpio_suspend_sys_noirq sch s).2.2).1 = 0
    ∧ (∀ reg, reg ∈ tracked →
        inl (sch_gpio_resume_sys_noirq w1c (sch_gpio_suspend_sys_noirq sch s).2.1
            (sch_gpio_suspend_sys_noirq sch s).2.2).2.2 (sch.iobase + reg)
          = inl s (sch.iobase + reg)
        ∧ ∀ k, k < 4 →
          inb (sch_gpio_resume_sys_noirq w1c (sch_gpio_suspend_sys_noirq sch s).2.1
              (sch_gpio_suspend_sys_noirq sch s).2.2).2.2 (sch.iobase + reg + k)
            = inb s (sch.iobase + reg + k))
    ∧ (∀ q,
        inb (sch_gpio_resume_sys_noirq w1c (sch_gpio_suspend_sys_noirq sch s).2.1
            (sch_gpio_suspend_sys_noirq sch s).2.2).2.2 q = inb s q) := by
  have hall := inb_resume_suspend w1c sch s hplain
  refine ⟨rfl, rfl, rfl, rfl, ?_, hall⟩
  intro reg _
  exact ⟨inl_congr _ s hall _, fun k _ => hall _⟩

/-- Witness for C8: `sch_lpc` over plain ports and over ports whose status
registers are write-one-to-clear, starting from the port space `live`. -/
theorem suspend_resume_round_trip_witness :
    (∀ q,
      inb (sch_gpio_resume_sys_noirq plain (sch_gpio_suspend_sys_noirq sch_lpc live).2.1
          (sch_gpio_suspend_sys_noirq sch_lpc live).2.2).2.2 q = inb live q)
    ∧ (∀ q,
      inb (sch_gpio_resume_sys_noirq (gts_w1c sch_lpc.iobase)
          (sch_gpio_suspend_sys_noirq sch_lpc live).2.1
          (sch_gpio_suspend_sys_noirq sch_lpc live).2.2).2.2 q = inb live q) :=
  ⟨(suspend_resume_round_trip plain sch_lpc live (by decide)).2.2.2.2.2,
   (suspend_resume_round_trip (gts_w1c sch_lpc.iobase) sch_lpc live
      (by decide)).2.2.2.2.2⟩

/-- Reading a byte after a 32-bit write of zero to plain ports. -/
theorem inb_outl_zero (w1c : Nat → Bool) (port : Nat) (s : Ports) (q : Nat)
    (h0 : w1c port = false) (h1 : w1c (port + 1) = false)
    (h2 : w1c (port + 2) = false) (h3 : w1c (port + 3) = false) :
    inb (outl w1c 0 port s) q = if port ≤ q ∧ q < port + 4 then 0 else inb s q := by
  rw [inb_outl w1c 0 port s q h0 h1 h2 h3]
  split_ifs <;> first | rfl | omega

/-- The log of a resume: the five 32-bit writes of the cached context, to
`GEN`, `GIO`, `GLV`, `GSMI`, `GNMIEN` in this order. -/
theorem resume_log (w1c : Nat → Bool) (sch : sch_gpio) (s : Ports) :
    (sch_gpio_resume_sys_noirq w1c sch s).2.2.log
      = s.log ++
        [Event.outl (sch.context.gen % 2 ^ 32) (sch.iobase + GEN),
         Event.outl (sch.context.gio % 2 ^ 32) (sch.iobase + GIO),
         Event.outl (sch.context.glvl % 2 ^ 32) (sch.iobase + GLV),
         Event.outl (sch.context.gsmi % 2 ^ 32) (sch.iobase + GSMI),
         Event.outl (sch.context.gnmien % 2 ^ 32) (sch.iobase + GNMIEN)] := by
  unfold sch_gpio_resume_sys_noirq outl
  simp only [List.append_assoc, List.cons_append, List.nil_append]

/-- Counterexample to C9 as stated: on the freshly attached `sch_lpc`, whose
context was never captured, over plain ports with non-zero registers,
`sch_gpio_resume_sys_noirq` returns 0 and writes zero to all five tracked
registers. -/
theorem fresh_resume_writes_zero :
    sch_lpc.context = devm_kzalloc.context
    ∧ (sch_gpio_resume_sys_noirq plain sch_lpc live).1 = 0
    ∧ (sch_gpio_resume_sys_noirq plain sch_lpc live).2.2.log
        = [Event.outl 0 (0x1000 + GEN), Event.outl 0 (0x1000 + GIO),
           Event.outl 0 (0x1000 + GLV), Event.outl 0 (0x1000 + GSMI),
           Event.outl 0 (0x1000 + GNMIEN)]
    ∧ inl live (0x1000 + GEN) = 0x7A55300B
    ∧ inl (sch_gpio_resume_sys_noirq plain sch_lpc live).2.2 (0x1000 + GEN) = 0
    ∧ ¬ ((sch_gpio_resume_sys_noirq plain sch_lpc live).1 ≠ 0
        ∧ Event.outl 0 (0x1000 + GEN)
            ∉ (sch_gpio_resume_sys_noirq plain sch_lpc live).2.2.log) := by
  refine ⟨?_, ?_, ?_, ?_, ?_, ?_⟩ <;> decide

/-- C9, amended: `sch_gpio_resume_sys_noirq` keeps no record of whether a
context was captured. It always returns 0, and on a freshly attached
controller (context still zero from `devm_kzalloc`) its five port writes are
`outl(0, ...)` to `GEN`, `GIO`, `GLV`, `GSMI` and `GNMIEN`, after which, on
plain ports, each of these registers reads 0. -/
theorem resume_without_suspend (w1c : Nat → Bool) (sch : sch_gpio) (s : Ports)
    (hfresh : sch.context = devm_kzalloc.context) :
    (sch_gpio_resume_sys_noirq w1c sch s).1 = 0
    ∧ (sch_gpio_resume_sys_noirq w1c sch s).2.2.log
        = s.log ++
          [Event.outl 0 (sch.iobase + GEN), Event.outl 0 (sch.iobase + GIO),
           Event.outl 0 (sch.iobase + GLV), Event.outl 0 (sch.iobase + GSMI),
           Event.outl 0 (sch.iobase + GNMIEN)]
    ∧ ((∀ reg, reg ∈ tracked → ∀ k, k < 4 → w1c (sch.iobase + reg + k) = false) →
        ∀ reg, reg ∈ tracked →
          inl (sch_gpio_resume_sys_noirq w1c sch s).2.2 (sch.iobase + reg) = 0) := by
  refine ⟨rfl, ?_, ?_⟩
  · rw [resume_log, hfresh]
    rfl
  · intro hplain
    have m0 : GEN ∈ tracked := by decide
    have m1 : GIO ∈ tracked := by decide
    have m2 : GLV ∈ tracked := by decide
    have m3 : GSMI ∈ tracked := by decide
    have m4 : GNMIEN ∈ tracked := by decide
    have k0 : (0 : Nat) < 4 := by decide
    have k1 : (1 : Nat) < 4 := by decide
    have k2 : (2 : Nat) < 4 := by decide
    have k3 : (3 : Nat) < 4 := by decide
    have hbyte : ∀ q,
        inb (sch_gpio_resume_sys_noirq w1c sch s).2.2 q =
          if sch.iobase + GNMIEN ≤ q ∧ q < sch.iobase + GNMIEN + 4 then 0
          else if sch.iobase + GSMI ≤ q ∧ q < sch.iobase + GSMI + 4 then 0
          else if sch.iobase + GLV ≤ q ∧ q < sch.iobase + GLV + 4 then 0
          else if sch.iobase + GIO ≤ q ∧ q < sch.iobase + GIO + 4 then 0
          else if sch.iobase + GEN ≤ q ∧ q < sch.iobase + GEN + 4 then 0
          else inb s q := by
      intro q
      unfold sch_gpio_resume_sys_noirq
      simp only [hfresh, devm_kzalloc]
      rw [inb_outl_zero w1c (sch.iobase + GNMIEN) _ q
            (hplain _ m4 0 k0) (hplain _ m4 1 k1) (hplain _ m4 2 k2) (hplain _ m4 3 k3),
          inb_outl_zero w1c (sch.iobase + GSMI) _ q
            (hplain _ m3 0 k0) (hplain _ m3 1 k1) (hplain _ m3 2 k2) (hplain _ m3 3 k3),
          inb_outl_zero w1c (sch.iobase + GLV) _ q
            (hplain _ m2 0 k0) (hplain _ m2 1 k1) (hplain _ m2 2 k2) (hplain _ m2 3 k3),
          inb_outl_zero w1c (sch.iobase + GIO) _ q
            (hplain _ m1 0 k0) (hplain _ m1 1 k1) (hplain _ m1 2 k2) (hplain _ m1 3 k3),
          inb_outl_zero w1c (sch.iobase + GEN) _ q
            (hplain _ m0 0 k0) (hplain _ m0 1 k1) (hplain _ m0 2 k2) (hplain _ m0 3 k3)]
    have hzero : ∀ reg, reg ∈ tracked → ∀ k, k < 4 →
        inb (sch_gpio_resume_sys_noirq w1c sch s).2.2 (sch.iobase + reg + k) = 0 := by
      intro reg hreg k hk
      rw [hbyte]
      simp only [tracked, List.mem_cons, List.mem_singleton, List.not_mem_nil,
        or_false] at hreg
      simp only [GEN, GIO, GLV, GSMI, GNMIEN] at hreg ⊢
      split_ifs <;> first | rfl | omega
    intro reg hreg
    unfold inl
    have e0 := hzero reg hreg 0 k0
    have e1 := hzero reg hreg 1 k1
    have e2 := hzero reg hreg 2 k2
    have e3 := hzero reg hreg 3 k3
    rw [Nat.add_zero] at e0
    rw [e0, e1, e2, e3]

/-- Witness for amended C9: the freshly attached `sch_lpc` over plain ports. -/
theorem resume_without_suspend_witness :
    (sch_gpio_resume_sys_noirq plain sch_lpc live).1 = 0
    ∧ ∀ reg, reg ∈ tracked →
        inl (sch_gpio_resume_sys_noirq plain sch_lpc live).2.2
          (sch_lpc.iobase + reg) = 0 :=
  ⟨(resume_without_suspend plain sch_lpc live (by decide)).1,
   (resume_without_suspend plain sch_lpc live (by decide)).2.2 (by decide)⟩

/-! ## Single-bit accessors and level round trip: theorems -/

/-- The bit index computed by `sch_gpio_bit` is below 8. -/
theorem sch_gpio_bit_lt (sch : sch_gpio) (gpio : Nat) : sch_gpio_bit sch gpio < 8 := by
  unfold sch_gpio_bit
  split <;> omega

/-- Masking with `BIT b` keeps bit `b` alone. -/
theorem and_BIT (v b : Nat) : v &&& BIT b = if v.testBit b then 2 ^ b else 0 := by
  apply Nat.eq_of_testBit_eq
  intro i
  unfold BIT
  rw [Nat.one_shiftLeft, Nat.testBit_and, Nat.testBit_two_pow]
  by_cases h : b = i
  · subst h
    cases hv : v.testBit b
    · simp
    · simp [Nat.testBit_two_pow_self]
  · have hd : decide (b = i) = false := by simpa using h
    rw [hd, Bool.and_false]
    split
    · exact (Nat.testBit_two_pow_of_ne h).symm
    · exact (Nat.zero_testBit i).symm

/-- The value of `sch_gpio_reg_rdbit` is 1 when the pin's bit of the register
byte is set and 0 otherwise. -/
theorem sch_gpio_reg_rdbit_eq (sch : sch_gpio) (s : Ports) (gpio reg : Nat) :
    sch_gpio_reg_rdbit sch s gpio reg =
      if (inb s (sch.iobase + sch_gpio_offset sch gpio reg % 2 ^ 16)).testBit
          (sch_gpio_bit sch gpio) then 1 else 0 := by
  have hb := sch_gpio_bit_lt sch gpio
  unfold sch_gpio_reg_rdbit
  simp only []
  rw [Nat.mod_eq_of_lt (show sch_gpio_bit sch gpio < 2 ^ 16 by omega), and_BIT]
  have hpow : 2 ^ sch_gpio_bit sch gpio < 256 := by
    have : 2 ^ sch_gpio_bit sch gpio < 2 ^ 8 :=
      Nat.pow_lt_pow_right (by decide) hb
    simpa using this
  have hpos : 0 < 2 ^ sch_gpio_bit sch gpio := Nat.two_pow_pos _
  cases hv : (inb s (sch.iobase + sch_gpio_offset sch gpio reg % 2 ^ 16)).testBit
      (sch_gpio_bit sch gpio)
  · simp
  · simp only [if_true]
    rw [Nat.mod_eq_of_lt hpow, if_pos (by omega)]

/-- Reading back a plain port after a byte write gives the byte written. -/
theorem inb_outb_same (w1c : Nat → Bool) (value port : Nat) (s : Ports)
    (h : w1c port = false) : inb (outb w1c value port s) port = value % 256 := by
  unfold inb outb store
  simp only [h, if_true, Bool.false_eq_true, if_false]
  exact Nat.mod_mod _ _

/-- On a plain port, `sch_gpio_reg_rdbit` after `sch_gpio_reg_wrbit` of the
same pin and register gives 1 when the value written was non-zero and 0
otherwise. -/
theorem sch_gpio_reg_rdbit_wrbit (w1c : Nat → Bool) (sch : sch_gpio) (s : Ports)
    (gpio reg : Nat) (val : Int)
    (h : w1c (sch.iobase + sch_gpio_offset sch gpio reg % 2 ^ 16) = false) :
    sch_gpio_reg_rdbit sch (sch_gpio_reg_wrbit w1c sch s gpio reg val) gpio reg
      = if val ≠ 0 then 1 else 0 := by
  have hb := sch_gpio_bit_lt sch gpio
  rw [sch_gpio_reg_rdbit_eq]
  unfold sch_gpio_reg_wrbit
  simp only []
  rw [Nat.mod_eq_of_lt (show sch_gpio_bit sch gpio < 2 ^ 16 by omega)]
  have h256 : (256 : Nat) = 2 ^ 8 := by decide
  have hd : decide (sch_gpio_bit sch gpio < 8) = true := by simpa using hb
  have hd64 : decide (sch_gpio_bit sch gpio < 64) = true := by
    simp only [decide_eq_true_eq]; omega
  by_cases hval : val ≠ 0
  · rw [if_pos hval, if_pos hval, inb_outb_same w1c _ _ s h, h256,
      Nat.testBit_mod_two_pow, Nat.testBit_or, hd]
    unfold BIT
    rw [Nat.one_shiftLeft, Nat.testBit_two_pow_self, Bool.or_true, Bool.and_true,
      if_pos rfl]
  · rw [if_neg hval, if_neg hval, inb_outb_same w1c _ _ s h, h256,
      Nat.testBit_mod_two_pow, Nat.testBit_and, Nat.testBit_xor,
      Nat.testBit_two_pow_sub_one, hd, hd64]
    unfold BIT
    rw [Nat.one_shiftLeft, Nat.testBit_two_pow_self]
    simp

/-- C10: over plain byte memory, once a pin has been put in output direction
by `sch_gpio_direction_out`, `sch_gpio_set` with a level `v` in `{0, 1}`
followed by `sch_gpio_get` of the same pin returns `v`. -/
theorem level_round_trip (sch : sch_gpio) (s : Ports) (p : Nat) (v0 v : Int)
    (hv : v = 0 ∨ v = 1) :
    sch_gpio_get sch
        (sch_gpio_set plain sch (sch_gpio_direction_out plain sch s p v0).2 p v) p
      = v := by
  unfold sch_gpio_get sch_gpio_set
  rw [sch_gpio_reg_rdbit_wrbit plain sch _ p GLV v rfl]
  rcases hv with h | h <;> subst h <;> rfl

/-- Witness for C10: pin 12 of `sch_lpc`, first driven low by
`sch_gpio_direction_out`, then set to 1 and read back. -/
theorem level_round_trip_witness :
    sch_gpio_get sch_lpc
        (sch_gpio_set plain sch_lpc
          (sch_gpio_direction_out plain sch_lpc live 12 0).2 12 1) 12
      = 1 :=
  level_round_trip sch_lpc live 12 0 1 (Or.inr rfl)

/-! ## Frame lemmas for the single-bit accessors -/

/-- A byte write only depends on the low byte of the value. -/
theorem outb_mod (w1c : Nat → Bool) (value port : Nat) (s : Ports) :
    outb w1c (value % 256) port s = outb w1c value port s := by
  unfold outb store
  simp only [Nat.mod_mod]

/-- A byte write leaves every other port as it was. -/
theorem mem_outb_other (w1c : Nat → Bool) (value port : Nat) (s : Ports) (q : Nat)
    (h : q ≠ port) : (outb w1c value port s).mem q = s.mem q := by
  unfold outb store
  simp only [if_neg h]

/-- Reading a port other than the one written gives the old byte. -/
theorem inb_outb_other (w1c : Nat → Bool) (value port : Nat) (s : Ports) (q : Nat)
    (h : q ≠ port) : inb (outb w1c value port s) q = inb s q := by
  unfold inb
  rw [mem_outb_other w1c value port s q h]

/-- The log after a byte write. -/
theorem log_outb (w1c : Nat → Bool) (value port : Nat) (s : Ports) :
    (outb w1c value port s).log = s.log ++ [Event.outb (value % 256) port] := rfl

/-- The one write of `sch_gpio_reg_wrbit`: a byte `b` goes to the pin's port,
with the pin's bit set exactly when `val` is non-zero and every other bit as it
was read from that port. -/
theorem sch_gpio_reg_wrbit_eq (w1c : Nat → Bool) (sch : sch_gpio) (s : Ports)
    (gpio reg : Nat) (val : Int) :
    ∃ b, b < 256
      ∧ b.testBit (sch_gpio_bit sch gpio) = decide (val ≠ 0)
      ∧ (∀ j, j ≠ sch_gpio_bit sch gpio →
          b.testBit j = (inb s (reg_port sch gpio reg)).testBit j)
      ∧ sch_gpio_reg_wrbit w1c sch s gpio reg val
          = outb w1c b (reg_port sch gpio reg) s := by
  have hb := sch_gpio_bit_lt sch gpio
  have h256 : (256 : Nat) = 2 ^ 8 := by decide
  have hd : decide (sch_gpio_bit sch gpio < 8) = true := by simpa using hb
  have hcur : ∀ j, (inb s (reg_port sch gpio reg)).testBit j
      = (decide (j < 8) && (s.mem (reg_port sch gpio reg)).testBit j) := by
    intro j
    unfold inb
    rw [h256, Nat.testBit_mod_two_pow]
  unfold sch_gpio_reg_wrbit
  simp only []
  rw [Nat.mod_eq_of_lt (show sch_gpio_bit sch gpio < 2 ^ 16 by omega)]
  by_cases hval : val ≠ 0
  · refine ⟨(inb s (reg_port sch gpio reg) ||| BIT (sch_gpio_bit sch gpio)) % 256,
      Nat.mod_lt _ (by decide), ?_, ?_, ?_⟩
    · rw [h256, Nat.testBit_mod_two_pow, Nat.testBit_or, hd]
      unfold BIT
      rw [Nat.one_shiftLeft, Nat.testBit_two_pow_self]
      simp [hval]
    · intro j hj
      rw [h256, Nat.testBit_mod_two_pow, Nat.testBit_or]
      unfold BIT
      rw [Nat.one_shiftLeft, Nat.testBit_two_pow_of_ne (fun e => hj e.symm),
        Bool.or_false, hcur j]
      cases decide (j < 8) <;> rfl
    · rw [if_pos hval, outb_mod]
      rfl
  · refine ⟨(inb s (reg_port sch gpio reg)
        &&& ((2 ^ 64 - 1) ^^^ BIT (sch_gpio_bit sch gpio))) % 256,
      Nat.mod_lt _ (by decide), ?_, ?_, ?_⟩
    · have hd64 : decide (sch_gpio_bit sch gpio < 64) = true := by
        simp only [decide_eq_true_eq]; omega
      rw [h256, Nat.testBit_mod_two_pow, Nat.testBit_and, Nat.testBit_xor,
        Nat.testBit_two_pow_sub_one, hd, hd64]
      unfold BIT
      rw [Nat.one_shiftLeft, Nat.testBit_two_pow_self]
      simp [hval]
    · intro j hj
      rw [h256, Nat.testBit_mod_two_pow, Nat.testBit_and, Nat.testBit_xor,
        Nat.testBit_two_pow_sub_one]
      unfold BIT
      rw [Nat.one_shiftLeft, Nat.testBit_two_pow_of_ne (fun e => hj e.symm), hcur j]
      by_cases h8 : j < 8
      · have h64 : decide (j < 64) = true := by
          simp only [decide_eq_true_eq]; omega
        rw [h64]
        simp
      · have : decide (j < 8) = false := by simpa using h8
        rw [this]
        simp
    · rw [if_neg hval, outb_mod]
      rfl

/-- The value of `sch_gpio_reg_rdbit` only depends on the byte at the pin's
port. -/
theorem sch_gpio_reg_rdbit_congr (sch : sch_gpio) (s1 s2 : Ports) (gpio reg : Nat)
    (h : inb s1 (reg_port sch gpio reg) = inb s2 (reg_port sch gpio reg)) :
    sch_gpio_reg_rdbit sch s1 gpio reg = sch_gpio_reg_rdbit sch s2 gpio reg := by
  unfold reg_port at h
  rw [sch_gpio_reg_rdbit_eq, sch_gpio_reg_rdbit_eq, h]

/-- A `sch_gpio_reg_wrbit` to another port does not change what
`sch_gpio_reg_rdbit` returns. -/
theorem sch_gpio_reg_rdbit_wrbit_other (w1c : Nat → Bool) (sch : sch_gpio)
    (s : Ports) (gpio reg gpio2 reg2 : Nat) (val : Int)
    (h : reg_port sch gpio reg ≠ reg_port sch gpio2 reg2) :
    sch_gpio_reg_rdbit sch (sch_gpio_reg_wrbit w1c sch s gpio2 reg2 val) gpio reg
      = sch_gpio_reg_rdbit sch s gpio reg := by
  obtain ⟨b, _, _, _, e⟩ := sch_gpio_reg_wrbit_eq w1c sch s gpio2 reg2 val
  rw [e]
  exact sch_gpio_reg_rdbit_congr sch _ s gpio reg (inb_outb_other w1c b _ s _ h)

/-- Two register bases `a` and `a + c` with `0 < c < 2 ^ 16` never share a port
for the same pin. -/
theorem reg_port_ne (sch : sch_gpio) (gpio a c : Nat) (hc0 : 0 < c)
    (hc : c < 2 ^ 16) : reg_port sch gpio a ≠ reg_port sch gpio (a + c) := by
  unfold reg_port sch_gpio_offset
  split <;> omega

/-! ## GPIO chip operations: theorems -/

/-- Counterexample to C11 as stated: on the layout `ngpio = 14` pin 16 is out
of range, yet `sch_gpio_direction_in` and `sch_gpio_direction_out` return 0 and
write to the ports; `sch_gpio_direction_in` changes the byte at
`iobase + GIO + 0x20` from `0x3F` to `0x7F`. -/
theorem direction_accepts_pin_16 :
    16 ≥ sch_lpc.ngpio
    ∧ (sch_gpio_direction_in plain sch_lpc live 16).1 = 0
    ∧ (sch_gpio_direction_in plain sch_lpc live 16).2.log
        = [Event.outb 0x7F (0x1000 + GIO + 0x20)]
    ∧ inb live (0x1000 + GIO + 0x20) = 0x3F
    ∧ inb (sch_gpio_direction_in plain sch_lpc live 16).2 (0x1000 + GIO + 0x20) = 0x7F
    ∧ (sch_gpio_direction_out plain sch_lpc live 16 1).1 = 0
    ∧ (sch_gpio_direction_out plain sch_lpc live 16 1).2.log
        = [Event.outb 0x3F (0x1000 + GIO + 0x20), Event.outb 0xD3 (0x1000 + GLV + 0x20)]
    ∧ ¬ ((sch_gpio_direction_in plain sch_lpc live 16).1 = -EINVAL
        ∧ (sch_gpio_direction_in plain sch_lpc live 16).2.log = live.log) := by
  refine ⟨?_, ?_, ?_, ?_, ?_, ?_, ?_, ?_⟩ <;> decide

/-- C11, amended: `sch_gpio_direction_in` and `sch_gpio_direction_out` do not
check the pin. For every controller and every pin, also `pin ≥ ngpio`, they
return 0 and perform their port writes: one byte to the port addressed for
`GIO`, and for `sch_gpio_direction_out` a second byte to the port addressed
for `GLV`. -/
theorem direction_no_range_check (w1c : Nat → Bool) (sch : sch_gpio) (s : Ports)
    (pin : Nat) (val : Int) :
    (sch_gpio_direction_in w1c sch s pin).1 = 0
    ∧ (∃ b, (sch_gpio_direction_in w1c sch s pin).2.log
        = s.log ++ [Event.outb b (reg_port sch pin GIO)])
    ∧ (sch_gpio_direction_out w1c sch s pin val).1 = 0
    ∧ (∃ b1 b2, (sch_gpio_direction_out w1c sch s pin val).2.log
        = s.log ++ [Event.outb b1 (reg_port sch pin GIO),
                    Event.outb b2 (reg_port sch pin GLV)]) := by
  refine ⟨rfl, ?_, rfl, ?_⟩
  · obtain ⟨b, hb, _, _, e⟩ := sch_gpio_reg_wrbit_eq w1c sch s pin GIO 1
    refine ⟨b, ?_⟩
    unfold sch_gpio_direction_in
    simp only []
    rw [e, log_outb, Nat.mod_eq_of_lt hb]
  · obtain ⟨b1, hb1, _, _, e1⟩ := sch_gpio_reg_wrbit_eq w1c sch s pin GIO 0
    obtain ⟨b2, hb2, _, _, e2⟩ := sch_gpio_reg_wrbit_eq w1c sch
      (sch_gpio_reg_wrbit w1c sch s pin GIO 0) pin GLV val
    refine ⟨b1, b2, ?_⟩
    unfold sch_gpio_direction_out
    simp only []
    rw [e2, log_outb, e1, log_outb, Nat.mod_eq_of_lt hb1, Nat.mod_eq_of_lt hb2,
      List.append_assoc]
    rfl

/-! ## Trigger type: theorems -/

/-- After two `sch_gpio_reg_wrbit` calls for one pin, to register bases `r1`
and then `r2` on different plain ports, both bits read back as written. -/
theorem rdbit_after_two_wrbit (sch : sch_gpio) (s : Ports) (gpio r1 r2 : Nat)
    (v1 v2 : Int) (h : reg_port sch gpio r1 ≠ reg_port sch gpio r2) :
    sch_gpio_reg_rdbit sch
        (sch_gpio_reg_wrbit plain sch (sch_gpio_reg_wrbit plain sch s gpio r1 v1)
          gpio r2 v2) gpio r1 = (if v1 ≠ 0 then 1 else 0)
    ∧ sch_gpio_reg_rdbit sch
        (sch_gpio_reg_wrbit plain sch (sch_gpio_reg_wrbit plain sch s gpio r1 v1)
          gpio r2 v2) gpio r2 = (if v2 ≠ 0 then 1 else 0) := by
  constructor
  · rw [sch_gpio_reg_rdbit_wrbit_other plain sch _ gpio r1 gpio r2 v2 h,
      sch_gpio_reg_rdbit_wrbit plain sch s gpio r1 v1 rfl]
  · rw [sch_gpio_reg_rdbit_wrbit plain sch _ gpio r2 v2 rfl]

/-- The ports addressed for `GTPE` and `GTNE` differ for every pin. -/
theorem reg_port_GTPE_ne_GTNE (sch : sch_gpio) (gpio : Nat) :
    reg_port sch gpio GTPE ≠ reg_port sch gpio GTNE :=
  reg_port_ne sch gpio GTPE 4 (by decide) (by decide)

/-- C12: over plain byte memory, for every pin, `sch_gpio_irq_type` returns 0
and leaves the pin's (`GTPE`, `GTNE`) bits reading (1, 0) for
`IRQ_TYPE_EDGE_RISING`, (0, 1) for `IRQ_TYPE_EDGE_FALLING`, (1, 1) for
`IRQ_TYPE_EDGE_BOTH` and (0, 0) for `IRQ_TYPE_NONE`; it returns 0 for exactly
these four type values. -/
theorem sch_gpio_irq_type_bits (sch : sch_gpio) (s : Ports) (d : irq_data) :
    ((sch_gpio_irq_type plain sch s d IRQ_TYPE_EDGE_RISING).1 = 0
      ∧ sch_gpio_reg_rdbit sch (sch_gpio_irq_type plain sch s d IRQ_TYPE_EDGE_RISING).2
          (irq_to_gpio_number sch d) GTPE = 1
      ∧ sch_gpio_reg_rdbit sch (sch_gpio_irq_type plain sch s d IRQ_TYPE_EDGE_RISING).2
          (irq_to_gpio_number sch d) GTNE = 0)
    ∧ ((sch_gpio_irq_type plain sch s d IRQ_TYPE_EDGE_FALLING).1 = 0
      ∧ sch_gpio_reg_rdbit sch (sch_gpio_irq_type plain sch s d IRQ_TYPE_EDGE_FALLING).2
          (irq_to_gpio_number sch d) GTPE = 0
      ∧ sch_gpio_reg_rdbit sch (sch_gpio_irq_type plain sch s d IRQ_TYPE_EDGE_FALLING).2
          (irq_to_gpio_number sch d) GTNE = 1)
    ∧ ((sch_gpio_irq_type plain sch s d IRQ_TYPE_EDGE_BOTH).1 = 0
      ∧ sch_gpio_reg_rdbit sch (sch_gpio_irq_type plain sch s d IRQ_TYPE_EDGE_BOTH).2
          (irq_to_gpio_number sch d) GTPE = 1
      ∧ sch_gpio_reg_rdbit sch (sch_gpio_irq_type plain sch s d IRQ_TYPE_EDGE_BOTH).2
          (irq_to_gpio_number sch d) GTNE = 1)
    ∧ ((sch_gpio_irq_type plain sch s d IRQ_TYPE_NONE).1 = 0
      ∧ sch_gpio_reg_rdbit sch (sch_gpio_irq_type plain sch s d IRQ_TYPE_NONE).2
          (irq_to_gpio_number sch d) GTPE = 0
      ∧ sch_gpio_reg_rdbit sch (sch_gpio_irq_type plain sch s d IRQ_TYPE_NONE).2
          (irq_to_gpio_number sch d) GTNE = 0)
    ∧ (∀ type, (sch_gpio_irq_type plain sch s d type).1 = 0 ↔
        (type = IRQ_TYPE_EDGE_RISING ∨ type = IRQ_TYPE_EDGE_FALLING
          ∨ type = IRQ_TYPE_EDGE_BOTH ∨ type = IRQ_TYPE_NONE)) := by
  have hne := reg_port_GTPE_ne_GTNE sch (irq_to_gpio_number sch d)
  refine ⟨?_, ?_, ?_, ?_, ?_⟩
  · have h := rdbit_after_two_wrbit sch s (irq_to_gpio_number sch d) GTPE GTNE 1 0 hne
    exact ⟨rfl, h.1, h.2⟩
  · have h := rdbit_after_two_wrbit sch s (irq_to_gpio_number sch d) GTNE GTPE 1 0
      hne.symm
    exact ⟨rfl, h.2, h.1⟩
  · have h := rdbit_after_two_wrbit sch s (irq_to_gpio_number sch d) GTPE GTNE 1 1 hne
    exact ⟨rfl, h.1, h.2⟩
  · have h := rdbit_after_two_wrbit sch s (irq_to_gpio_number sch d) GTPE GTNE 0 0 hne
    exact ⟨rfl, h.1, h.2⟩
  · intro type
    unfold sch_gpio_irq_type
    simp only []
    by_cases h1 : type = IRQ_TYPE_EDGE_RISING
    · rw [if_pos h1]
      exact ⟨fun _ => Or.inl h1, fun _ => rfl⟩
    · rw [if_neg h1]
      by_cases h2 : type = IRQ_TYPE_EDGE_FALLING
      · rw [if_pos h2]
        exact ⟨fun _ => Or.inr (Or.inl h2), fun _ => rfl⟩
      · rw [if_neg h2]
        by_cases h3 : type = IRQ_TYPE_EDGE_BOTH
        · rw [if_pos h3]
          exact ⟨fun _ => Or.inr (Or.inr (Or.inl h3)), fun _ => rfl⟩
        · rw [if_neg h3]
          by_cases h4 : type = IRQ_TYPE_NONE
          · rw [if_pos h4]
            exact ⟨fun _ => Or.inr (Or.inr (Or.inr h4)), fun _ => rfl⟩
          · rw [if_neg h4]
            have hne : -EINVAL ≠ 0 := by decide
            constructor
            · intro h
              exact absurd h hne
            · rintro (h | h | h | h)
              · exact absurd h h1
              · exact absurd h h2
              · exact absurd h h3
              · exact absurd h h4

/-- Witness for C12: pin 12 of `sch_lpc` (interrupt 76) with type value 3,
which is `IRQ_TYPE_EDGE_BOTH`. -/
theorem sch_gpio_irq_type_bits_witness :
    (sch_gpio_irq_type plain sch_lpc live ⟨76⟩ 3).1 = 0 :=
  ((sch_gpio_irq_type_bits sch_lpc live ⟨76⟩).2.2.2.2 3).mpr
    (Or.inr (Or.inr (Or.inl rfl)))

/-- C13: for every type value other than `IRQ_TYPE_EDGE_RISING`,
`IRQ_TYPE_EDGE_FALLING`, `IRQ_TYPE_EDGE_BOTH` and `IRQ_TYPE_NONE`,
`sch_gpio_irq_type` returns `-EINVAL` and the port space after the call, log
of writes included, is the port space before it. -/
theorem sch_gpio_irq_type_rejects (w1c : Nat → Bool) (sch : sch_gpio) (s : Ports)
    (d : irq_data) (type : Nat)
    (h1 : type ≠ IRQ_TYPE_EDGE_RISING) (h2 : type ≠ IRQ_TYPE_EDGE_FALLING)
    (h3 : type ≠ IRQ_TYPE_EDGE_BOTH) (h4 : type ≠ IRQ_TYPE_NONE) :
    (sch_gpio_irq_type w1c sch s d type).1 = -EINVAL
    ∧ (sch_gpio_irq_type w1c sch s d type).1 = -22
    ∧ (sch_gpio_irq_type w1c sch s d type).2.mem = s.mem
    ∧ (sch_gpio_irq_type w1c sch s d type).2.log = s.log := by
  unfold sch_gpio_irq_type
  simp only []
  rw [if_neg h1, if_neg h2, if_neg h3, if_neg h4]
  exact ⟨rfl, rfl, rfl, rfl⟩

/-- Witness for C13: type value 4 (`IRQ_TYPE_LEVEL_HIGH`) on pin 12 of
`sch_lpc`. -/
theorem sch_gpio_irq_type_rejects_witness :
    (sch_gpio_irq_type plain sch_lpc live ⟨76⟩ 4).1 = -EINVAL
    ∧ (sch_gpio_irq_type plain sch_lpc live ⟨76⟩ 4).1 = -22
    ∧ (sch_gpio_irq_type plain sch_lpc live ⟨76⟩ 4).2.mem = live.mem
    ∧ (sch_gpio_irq_type plain sch_lpc live ⟨76⟩ 4).2.log = live.log :=
  sch_gpio_irq_type_rejects plain sch_lpc live ⟨76⟩ 4
    (by decide) (by decide) (by decide) (by decide)

/-! ## Direction output: theorems -/

/-- C14: `sch_gpio_direction_out(pin, val)` returns 0 and its port writes are
exactly two, in this order: a byte to the pin's `GIO` port with the pin's bit
cleared and the other bits as read, then a byte to the pin's `GLV` port with
the pin's bit set exactly when `val` is non-zero and the other bits as read
after the first write. Over plain byte memory the pin's `GIO` bit then reads 0
and its `GLV` bit reads 1 exactly when `val` is non-zero. -/
theorem direction_out_sequence (w1c : Nat → Bool) (sch : sch_gpio) (s : Ports)
    (pin : Nat) (val : Int) :
    (sch_gpio_direction_out w1c sch s pin val).1 = 0
    ∧ (∃ b1 b2,
        (sch_gpio_direction_out w1c sch s pin val).2.log
          = s.log ++ [Event.outb b1 (reg_port sch pin GIO),
                      Event.outb b2 (reg_port sch pin GLV)]
        ∧ b1.testBit (sch_gpio_bit sch pin) = false
        ∧ (∀ j, j ≠ sch_gpio_bit sch pin →
            b1.testBit j = (inb s (reg_port sch pin GIO)).testBit j)
        ∧ b2.testBit (sch_gpio_bit sch pin) = decide (val ≠ 0)
        ∧ (∀ j, j ≠ sch_gpio_bit sch pin →
            b2.testBit j
              = (inb (sch_gpio_reg_wrbit w1c sch s pin GIO 0)
                  (reg_port sch pin GLV)).testBit j))
    ∧ sch_gpio_reg_rdbit sch (sch_gpio_direction_out plain sch s pin val).2 pin GIO = 0
    ∧ sch_gpio_reg_rdbit sch (sch_gpio_direction_out plain sch s pin val).2 pin GLV
        = (if val ≠ 0 then 1 else 0) := by
  refine ⟨rfl, ?_, ?_, ?_⟩
  · obtain ⟨b1, hb1, hbit1, hoth1, e1⟩ := sch_gpio_reg_wrbit_eq w1c sch s pin GIO 0
    obtain ⟨b2, hb2, hbit2, hoth2, e2⟩ := sch_gpio_reg_wrbit_eq w1c sch
      (sch_gpio_reg_wrbit w1c sch s pin GIO 0) pin GLV val
    refine ⟨b1, b2, ?_, ?_, hoth1, hbit2, hoth2⟩
    · unfold sch_gpio_direction_out
      simp only []
      rw [e2, log_outb, e1, log_outb, Nat.mod_eq_of_lt hb1, Nat.mod_eq_of_lt hb2,
        List.append_assoc]
      rfl
    · rw [hbit1]
      decide
  · have hne : reg_port sch pin GIO ≠ reg_port sch pin GLV :=
      reg_port_ne sch pin GIO 4 (by decide) (by decide)
    exact (rdbit_after_two_wrbit sch s pin GIO GLV 0 val hne).1
  · have hne : reg_port sch pin GIO ≠ reg_port sch pin GLV :=
      reg_port_ne sch pin GIO 4 (by decide) (by decide)
    exact (rdbit_after_two_wrbit sch s pin GIO GLV 0 val hne).2

/-- Witness for C14: pin 12 of `sch_lpc` driven high. -/
theorem direction_out_sequence_witness :
    (sch_gpio_direction_out plain sch_lpc live 12 1).1 = 0
    ∧ sch_gpio_reg_rdbit sch_lpc (sch_gpio_direction_out plain sch_lpc live 12 1).2
        12 GIO = 0
    ∧ sch_gpio_reg_rdbit sch_lpc (sch_gpio_direction_out plain sch_lpc live 12 1).2
        12 GLV = 1 :=
  ⟨(direction_out_sequence plain sch_lpc live 12 1).1,
   (direction_out_sequence plain sch_lpc live 12 1).2.2.1,
   (direction_out_sequence plain sch_lpc live 12 1).2.2.2⟩

/-! ## Acknowledge: theorems -/

set_option maxRecDepth 100000 in
/-- C15, evaluated on the code: on the layout `ngpio = 14`, `resume_base = 10`
with the status register write-one-to-clear and pins 3, 7 and 11 pending,
`sch_gpio_irq_ack` for pin 3 writes back the whole status byte read (`0x88`),
which clears the pending bit of pin 7 as well; pin 11, in another byte, keeps
its bit. -/
theorem irq_ack_clears_pin_sharing_status_byte :
    irq_to_gpio_number sch_lpc ⟨67⟩ = 3
    ∧ sch_gpio_reg_rdbit sch_lpc pending_3_7_11 7 GTS = 1
    ∧ (sch_gpio_irq_ack (gts_w1c sch_lpc.iobase) sch_lpc pending_3_7_11 ⟨67⟩).log
        = [Event.outb 0x88 (0x1000 + GTS)]
    ∧ sch_gpio_reg_rdbit sch_lpc
        (sch_gpio_irq_ack (gts_w1c sch_lpc.iobase) sch_lpc pending_3_7_11 ⟨67⟩)
        3 GTS = 0
    ∧ sch_gpio_reg_rdbit sch_lpc
        (sch_gpio_irq_ack (gts_w1c sch_lpc.iobase) sch_lpc pending_3_7_11 ⟨67⟩)
        7 GTS = 0
    ∧ sch_gpio_reg_rdbit sch_lpc
        (sch_gpio_irq_ack (gts_w1c sch_lpc.iobase) sch_lpc pending_3_7_11 ⟨67⟩)
        11 GTS = 1 := by
  refine ⟨?_, ?_, ?_, ?_, ?_, ?_⟩ <;> decide

/-! ## Stride of eight pins: theorems -/

/-- C16: for two pins `p` and `p + 8` of the same well (both below the resume
boundary, or both at or above it) and every register base `k`,
`sch_gpio_bit` agrees on them and `sch_gpio_offset` of `p + 8` is one more than
that of `p`: always so in `unsigned` arithmetic, and exactly so whenever
`k + 0x20 + (p + 8) / 8` fits in 32 bits, as it does for every register base
of the device. -/
theorem offset_bit_stride_eight (sch : sch_gpio) (p k : Nat)
    (hwell : (p < sch.resume_base ∧ p + 8 < sch.resume_base)
      ∨ (sch.resume_base ≤ p ∧ sch.resume_base ≤ p + 8)) :
    sch_gpio_bit sch p = sch_gpio_bit sch (p + 8)
    ∧ sch_gpio_offset sch (p + 8) k = (sch_gpio_offset sch p k + 1) % 2 ^ 32
    ∧ (k + 0x20 + (p + 8) / 8 < 2 ^ 32 →
        sch_gpio_offset sch (p + 8) k = sch_gpio_offset sch p k + 1) := by
  unfold sch_gpio_bit sch_gpio_offset
  rcases hwell with h | h
  · rw [if_neg (by omega), if_neg (by omega), if_neg (by omega), if_neg (by omega)]
    refine ⟨by omega, by omega, fun hfit => by omega⟩
  · rw [if_pos (by omega), if_pos (by omega), if_pos (by omega), if_pos (by omega)]
    refine ⟨by omega, by omega, fun hfit => by omega⟩

/-- Witness for C16: pins 0 and 8 of the core well and pins 21 and 29 of the
resume well on a layout with `resume_base = 21`, register base `GTS`. -/
theorem offset_bit_stride_eight_witness :
    (sch_gpio_bit sch_centerton 0
        = sch_gpio_bit sch_centerton 8
      ∧ sch_gpio_offset sch_centerton 8 GTS
        = sch_gpio_offset sch_centerton 0 GTS + 1)
    ∧ (sch_gpio_bit sch_centerton 21
        = sch_gpio_bit sch_centerton 29
      ∧ sch_gpio_offset sch_centerton 29 GTS
        = sch_gpio_offset sch_centerton 21 GTS + 1) :=
  ⟨⟨(offset_bit_stride_eight sch_centerton 0 GTS
        (Or.inl ⟨by decide, by decide⟩)).1,
    (offset_bit_stride_eight sch_centerton 0 GTS
        (Or.inl ⟨by decide, by decide⟩)).2.2 (by decide)⟩,
   ⟨(offset_bit_stride_eight sch_centerton 21 GTS
        (Or.inr ⟨by decide, by decide⟩)).1,
    (offset_bit_stride_eight sch_centerton 21 GTS
        (Or.inr ⟨by decide, by decide⟩)).2.2 (by decide)⟩⟩

/-! ## Disabling all interrupts: theorems -/

/-- Which ports the model `gts_w1c` treats as latches: the bytes
`0x1C .. 0x1F` and `0x3C .. 0x3F` above the I/O base. -/
theorem gts_w1c_eq (iobase p : Nat) :
    gts_w1c iobase p
      = decide ((iobase + 0x1C ≤ p ∧ p < iobase + 0x20)
          ∨ (iobase + 0x3C ≤ p ∧ p < iobase + 0x40)) := by
  unfold gts_w1c GTS
  by_cases h1 : iobase + 0x1C ≤ p ∧ p < iobase + 0x20
  · have a : decide (iobase + 0x1C ≤ p) = true := by simpa using h1.1
    have b : decide (p < iobase + 0x1C + 4) = true := by
      simp only [decide_eq_true_eq]; omega
    rw [a, b]
    simp [h1]
  · by_cases h2 : iobase + 0x3C ≤ p ∧ p < iobase + 0x40
    · have a : decide (iobase + 0x1C + 0x20 ≤ p) = true := by
        simp only [decide_eq_true_eq]; omega
      have b : decide (p < iobase + 0x1C + 0x20 + 4) = true := by
        simp only [decide_eq_true_eq]; omega
      rw [a, b]
      simp [h2]
    · have hr : decide ((iobase + 0x1C ≤ p ∧ p < iobase + 0x20)
          ∨ (iobase + 0x3C ≤ p ∧ p < iobase + 0x40)) = false := by
        simp only [decide_eq_false_iff_not]
        exact fun h => h.elim h1 h2
      rw [hr]
      have hl : ¬ ((iobase + 0x1C ≤ p ∧ p < iobase + 0x1C + 4)
          ∨ (iobase + 0x1C + 0x20 ≤ p ∧ p < iobase + 0x1C + 0x20 + 4)) := by omega
      simpa using hl

/-- Reading a byte after a 32-bit write of all ones to latch ports: the four
ports written read 0, every other port as before. -/
theorem inb_outl_ones_w1c (w1c : Nat → Bool) (port : Nat) (s : Ports) (q : Nat)
    (h0 : w1c port = true) (h1 : w1c (port + 1) = true)
    (h2 : w1c (port + 2) = true) (h3 : w1c (port + 3) = true) :
    inb (outl w1c 0xFFFFFFFF port s) q
      = if port ≤ q ∧ q < port + 4 then 0 else inb s q := by
  unfold inb outl store
  simp only [h0, h1, h2, h3, if_true]
  by_cases e3 : q = port + 3
  · subst e3
    simp
  · by_cases e2 : q = port + 2
    · subst e2
      simp
    · by_cases e1 : q = port + 1
      · subst e1
        simp
      · by_cases e0 : q = port
        · subst e0
          simp
        · rw [if_neg e3, if_neg e2, if_neg e1, if_neg e0, if_neg (by omega)]

/-- A 32-bit write of zero under `gts_w1c`, to a register that is not a status
register. -/
theorem inb_outl_zero_gts (iobase port : Nat) (s : Ports) (q : Nat)
    (hport : port + 4 ≤ iobase + 0x1C
      ∨ (iobase + 0x20 ≤ port ∧ port + 4 ≤ iobase + 0x3C)
      ∨ iobase + 0x40 ≤ port) :
    inb (outl (gts_w1c iobase) 0 port s) q
      = if port ≤ q ∧ q < port + 4 then 0 else inb s q := by
  have F : ∀ p, port ≤ p → p < port + 4 → gts_w1c iobase p = false := by
    intro p h1 h2
    rw [gts_w1c_eq]
    simp only [decide_eq_false_iff_not]
    omega
  exact inb_outl_zero (gts_w1c iobase) port s q
    (F _ (by omega) (by omega)) (F _ (by omega) (by omega))
    (F _ (by omega) (by omega)) (F _ (by omega) (by omega))

/-- A 32-bit write of all ones under `gts_w1c`, to a status register. -/
theorem inb_outl_ones_gts (iobase port : Nat) (s : Ports) (q : Nat)
    (hport : port = iobase + 0x1C ∨ port = iobase + 0x3C) :
    inb (outl (gts_w1c iobase) 0xFFFFFFFF port s) q
      = if port ≤ q ∧ q < port + 4 then 0 else inb s q := by
  have T : ∀ p, port ≤ p → p < port + 4 → gts_w1c iobase p = true := by
    intro p h1 h2
    rw [gts_w1c_eq]
    simp only [decide_eq_true_eq]
    omega
  exact inb_outl_ones_w1c (gts_w1c iobase) port s q
    (T _ (by omega) (by omega)) (T _ (by omega) (by omega))
    (T _ (by omega) (by omega)) (T _ (by omega) (by omega))

/-- One more write that makes four ports read 0 extends the cleared region. -/
theorem cleared_on_step (R : Nat → Prop) (s s1 s2 : Ports) (port : Nat)
    (hw : ∀ q, inb s2 q = if port ≤ q ∧ q < port + 4 then 0 else inb s1 q)
    (h : cleared_on R s s1) :
    cleared_on (fun q => R q ∨ (port ≤ q ∧ q < port + 4)) s s2 := by
  intro q
  by_cases hr : port ≤ q ∧ q < port + 4
  · constructor
    · intro _
      rw [hw q, if_pos hr]
    · intro hn
      exact absurd (Or.inr hr) hn
  · constructor
    · intro hq
      rw [hw q, if_neg hr]
      exact (h q).1 (hq.resolve_right hr)
    · intro hn
      rw [hw q, if_neg hr]
      exact (h q).2 (fun hq => hn (Or.inl hq))

/-- After `sch_gpio_irq_disable_all`, with the status registers as latches and
every other port plain, the bytes `0x0C .. 0x1F` and `0x2C .. 0x47` above the
I/O base read 0 and every other port reads as before. -/
theorem inb_irq_disable_all (sch : sch_gpio) (s : Ports) :
    cleared_on
      (fun q => (sch.iobase + 0x0C ≤ q ∧ q < sch.iobase + 0x20)
        ∨ (sch.iobase + 0x2C ≤ q ∧ q < sch.iobase + 0x48))
      s (sch_gpio_irq_disable_all (gts_w1c sch.iobase) sch s) := by
  have c1 : GTPE = 0x0C := rfl
  have c2 : GTNE = 0x10 := rfl
  have c3 : GGPE = 0x14 := rfl
  have c4 : GSMI = 0x18 := rfl
  have c5 : GTS = 0x1C := rfl
  have c6 : GNMIEN = 0x40 := rfl
  have c7 : RGNMIEN = 0x44 := rfl
  have h0 : cleared_on (fun _ => False) s s :=
    fun q => ⟨fun h => h.elim, fun _ => rfl⟩
  have h1 := cleared_on_step _ s _ _ (sch.iobase + GTPE)
    (fun q => inb_outl_zero_gts sch.iobase (sch.iobase + GTPE) _ q (by omega)) h0
  have h2 := cleared_on_step _ s _ _ (sch.iobase + GTNE)
    (fun q => inb_outl_zero_gts sch.iobase (sch.iobase + GTNE) _ q (by omega)) h1
  have h3 := cleared_on_step _ s _ _ (sch.iobase + GGPE)
    (fun q => inb_outl_zero_gts sch.iobase (sch.iobase + GGPE) _ q (by omega)) h2
  have h4 := cleared_on_step _ s _ _ (sch.iobase + GSMI)
    (fun q => inb_outl_zero_gts sch.iobase (sch.iobase + GSMI) _ q (by omega)) h3
  have h5 := cleared_on_step _ s _ _ (sch.iobase + GNMIEN)
    (fun q => inb_outl_zero_gts sch.iobase (sch.iobase + GNMIEN) _ q (by omega)) h4
  have h6 := cleared_on_step _ s _ _ (sch.iobase + GTPE + 0x20)
    (fun q => inb_outl_zero_gts sch.iobase (sch.iobase + GTPE + 0x20) _ q (by omega)) h5
  have h7 := cleared_on_step _ s _ _ (sch.iobase + GTNE + 0x20)
    (fun q => inb_outl_zero_gts sch.iobase (sch.iobase + GTNE + 0x20) _ q (by omega)) h6
  have h8 := cleared_on_step _ s _ _ (sch.iobase + GGPE + 0x20)
    (fun q => inb_outl_zero_gts sch.iobase (sch.iobase + GGPE + 0x20) _ q (by omega)) h7
  have h9 := cleared_on_step _ s _ _ (sch.iobase + GSMI + 0x20)
    (fun q => inb_outl_zero_gts sch.iobase (sch.iobase + GSMI + 0x20) _ q (by omega)) h8
  have h10 := cleared_on_step _ s _ _ (sch.iobase + RGNMIEN)
    (fun q => inb_outl_zero_gts sch.iobase (sch.iobase + RGNMIEN) _ q (by omega)) h9
  have h11 := cleared_on_step _ s _ _ (sch.iobase + GTS)
    (fun q => inb_outl_ones_gts sch.iobase (sch.iobase + GTS) _ q (by omega)) h10
  have h12 := cleared_on_step _ s _ _ (sch.iobase + GTS + 0x20)
    (fun q => inb_outl_ones_gts sch.iobase (sch.iobase + GTS + 0x20) _ q (by omega)) h11
  intro q
  have hq := h12 q
  constructor
  · intro hin
    refine hq.1 ?_
    beta_reduce at hin ⊢
    simp only [false_or]
    omega
  · intro hout
    refine hq.2 ?_
    beta_reduce at hout ⊢
    simp only [false_or]
    omega

/-- A 32-bit register whose four bytes read 0 reads 0. -/
theorem inl_eq_zero (s : Ports) (port : Nat)
    (h : ∀ q, port ≤ q → q < port + 4 → inb s q = 0) : inl s port = 0 := by
  unfold inl
  rw [h port (by omega) (by omega), h (port + 1) (by omega) (by omega),
    h (port + 2) (by omega) (by omega), h (port + 3) (by omega) (by omega)]

/-- The log of `sch_gpio_irq_disable_all`: ten 32-bit writes of zero, then
`0xFFFFFFFF` to `GTS` and to `GTS + 0x20`. -/
theorem irq_disable_all_log (w1c : Nat → Bool) (sch : sch_gpio) (s : Ports) :
    (sch_gpio_irq_disable_all w1c sch s).log
      = s.log ++
        [Event.outl 0 (sch.iobase + GTPE), Event.outl 0 (sch.iobase + GTNE),
         Event.outl 0 (sch.iobase + GGPE), Event.outl 0 (sch.iobase + GSMI),
         Event.outl 0 (sch.iobase + GNMIEN),
         Event.outl 0 (sch.iobase + GTPE + 0x20),
         Event.outl 0 (sch.iobase + GTNE + 0x20),
         Event.outl 0 (sch.iobase + GGPE + 0x20),
         Event.outl 0 (sch.iobase + GSMI + 0x20),
         Event.outl 0 (sch.iobase + RGNMIEN),
         Event.outl 0xFFFFFFFF (sch.iobase + GTS),
         Event.outl 0xFFFFFFFF (sch.iobase + GTS + 0x20)] := by
  unfold sch_gpio_irq_disable_all outl
  simp only [List.append_assoc, List.cons_append, List.nil_append]
  rfl

/-- C17: with the status registers write-one-to-clear and every other port
plain, after `sch_gpio_irq_disable_all` the 32-bit registers at `iobase` plus
`GTPE`, `GTNE`, `GGPE`, `GSMI`, `GNMIEN` and plus `GTPE + 0x20`, `GTNE + 0x20`,
`GGPE + 0x20`, `GSMI + 0x20`, `RGNMIEN` all read 0; the value written to `GTS`
and to `GTS + 0x20` is `0xFFFFFFFF`, both status registers read 0 afterwards,
and the status bit of every pin whose index in its well is below 32 (the
width of a status register) reads as not pending. -/
theorem irq_disable_all_clears (sch : sch_gpio) (s : Ports) :
    (∀ reg, reg ∈ routing →
        inl (sch_gpio_irq_disable_all (gts_w1c sch.iobase) sch s) (sch.iobase + reg) = 0)
    ∧ (∀ w1c, (sch_gpio_irq_disable_all w1c sch s).log
        = s.log ++
          [Event.outl 0 (sch.iobase + GTPE), Event.outl 0 (sch.iobase + GTNE),
           Event.outl 0 (sch.iobase + GGPE), Event.outl 0 (sch.iobase + GSMI),
           Event.outl 0 (sch.iobase + GNMIEN),
           Event.outl 0 (sch.iobase + GTPE + 0x20),
           Event.outl 0 (sch.iobase + GTNE + 0x20),
           Event.outl 0 (sch.iobase + GGPE + 0x20),
           Event.outl 0 (sch.iobase + GSMI + 0x20),
           Event.outl 0 (sch.iobase + RGNMIEN),
           Event.outl 0xFFFFFFFF (sch.iobase + GTS),
           Event.outl 0xFFFFFFFF (sch.iobase + GTS + 0x20)])
    ∧ inl (sch_gpio_irq_disable_all (gts_w1c sch.iobase) sch s) (sch.iobase + GTS) = 0
    ∧ inl (sch_gpio_irq_disable_all (gts_w1c sch.iobase) sch s)
        (sch.iobase + GTS + 0x20) = 0
    ∧ (∀ pin,
        ((pin < sch.resume_base ∧ pin < 32)
          ∨ (sch.resume_base ≤ pin ∧ pin - sch.resume_base < 32)) →
        sch_gpio_reg_rdbit sch (sch_gpio_irq_disable_all (gts_w1c sch.iobase) sch s)
          pin GTS = 0) := by
  have c1 : GTPE = 0x0C := rfl
  have c2 : GTNE = 0x10 := rfl
  have c3 : GGPE = 0x14 := rfl
  have c4 : GSMI = 0x18 := rfl
  have c5 : GTS = 0x1C := rfl
  have c6 : GNMIEN = 0x40 := rfl
  have c7 : RGNMIEN = 0x44 := rfl
  have hz : ∀ q, ((sch.iobase + 0x0C ≤ q ∧ q < sch.iobase + 0x20)
      ∨ (sch.iobase + 0x2C ≤ q ∧ q < sch.iobase + 0x48)) →
      inb (sch_gpio_irq_disable_all (gts_w1c sch.iobase) sch s) q = 0 :=
    fun q h => (inb_irq_disable_all sch s q).1 h
  refine ⟨?_, fun w1c => irq_disable_all_log w1c sch s, ?_, ?_, ?_⟩
  · intro reg hreg
    simp only [routing, List.mem_cons, List.mem_singleton, List.not_mem_nil,
      or_false] at hreg
    apply inl_eq_zero
    intro q h1 h2
    apply hz
    omega
  · apply inl_eq_zero
    intro q h1 h2
    apply hz
    omega
  · apply inl_eq_zero
    intro q h1 h2
    apply hz
    omega
  · intro pin hpin
    rw [sch_gpio_reg_rdbit_eq, hz _ (by
      unfold sch_gpio_offset
      split <;> omega), Nat.zero_testBit]
    rfl

/-- Witness for C17: pin 7 of `sch_lpc`, pending before the call, reads as not
pending after it. -/
theorem irq_disable_all_clears_witness :
    sch_gpio_reg_rdbit sch_lpc pending_3_7_11 7 GTS = 1
    ∧ sch_gpio_reg_rdbit sch_lpc
        (sch_gpio_irq_disable_all (gts_w1c sch_lpc.iobase) sch_lpc pending_3_7_11)
        7 GTS = 0
    ∧ inl (sch_gpio_irq_disable_all (gts_w1c sch_lpc.iobase) sch_lpc pending_3_7_11)
        (sch_lpc.iobase + GGPE) = 0 :=
  ⟨by decide,
   (irq_disable_all_clears sch_lpc pending_3_7_11).2.2.2.2 7 (Or.inl (by decide)),
   (irq_disable_all_clears sch_lpc pending_3_7_11).1 GGPE (by decide)⟩

/-! ## Variant selection: theorems -/

/-- C18: with pairwise different case labels, the variant selection of
`sch_gpio_probe` stores (`resume_base`, `ngpio`) = (10, 14), (5, 14), (21, 30)
or (2, 8) for the four recognised identifiers, in this order of the labels
SCH, ITC, Centerton, Quark X1000; for every other identifier it fails with
`-ENODEV` and produces no layout. Every layout it produces satisfies
`resume_base ≤ ngpio ≤ 64`. -/
theorem probe_variant_layouts (ids : pci_device_ids) (w1c : Nat → Bool)
    (sch : sch_gpio) (s : Ports) (id : Int) (hd : case_labels_distinct ids) :
    (id = ids.PCI_DEVICE_ID_INTEL_SCH_LPC →
        ∃ r, sch_gpio_probe_variant ids w1c sch s id = Except.ok r
          ∧ r.1.resume_base = 10 ∧ r.1.ngpio = 14 ∧ r.1.core_base = 0)
    ∧ (id = ids.PCI_DEVICE_ID_INTEL_ITC_LPC →
        ∃ r, sch_gpio_probe_variant ids w1c sch s id = Except.ok r
          ∧ r.1.resume_base = 5 ∧ r.1.ngpio = 14 ∧ r.1.core_base = 0)
    ∧ (id = ids.PCI_DEVICE_ID_INTEL_CENTERTON_ILB →
        ∃ r, sch_gpio_probe_variant ids w1c sch s id = Except.ok r
          ∧ r.1.resume_base = 21 ∧ r.1.ngpio = 30 ∧ r.1.core_base = 0)
    ∧ (id = ids.PCI_DEVICE_ID_INTEL_QUARK_X1000_ILB →
        ∃ r, sch_gpio_probe_variant ids w1c sch s id = Except.ok r
          ∧ r.1.resume_base = 2 ∧ r.1.ngpio = 8 ∧ r.1.core_base = 0)
    ∧ (id ≠ ids.PCI_DEVICE_ID_INTEL_SCH_LPC →
        id ≠ ids.PCI_DEVICE_ID_INTEL_ITC_LPC →
        id ≠ ids.PCI_DEVICE_ID_INTEL_CENTERTON_ILB →
        id ≠ ids.PCI_DEVICE_ID_INTEL_QUARK_X1000_ILB →
        sch_gpio_probe_variant ids w1c sch s id = Except.error (-ENODEV))
    ∧ (∀ r, sch_gpio_probe_variant ids w1c sch s id = Except.ok r →
        controller_inv r.1
        ∧ 0 ≤ r.1.resume_base ∧ r.1.resume_base ≤ r.1.ngpio ∧ r.1.ngpio ≤ 64
        ∧ (r.1.resume_base, r.1.ngpio) ∈ [(10, 14), (5, 14), (21, 30), (2, 8)]) := by
  obtain ⟨d12, d13, d14, d23, d24, d34⟩ := hd
  refine ⟨?_, ?_, ?_, ?_, ?_, ?_⟩
  · intro h
    unfold sch_gpio_probe_variant
    rw [if_pos h]
    exact ⟨_, rfl, rfl, rfl, rfl⟩
  · intro h
    unfold sch_gpio_probe_variant
    rw [if_neg (by rw [h]; exact d12.symm), if_pos h]
    exact ⟨_, rfl, rfl, rfl, rfl⟩
  · intro h
    unfold sch_gpio_probe_variant
    rw [if_neg (by rw [h]; exact d13.symm), if_neg (by rw [h]; exact d23.symm),
      if_pos h]
    exact ⟨_, rfl, rfl, rfl, rfl⟩
  · intro h
    unfold sch_gpio_probe_variant
    rw [if_neg (by rw [h]; exact d14.symm), if_neg (by rw [h]; exact d24.symm),
      if_neg (by rw [h]; exact d34.symm), if_pos h]
    exact ⟨_, rfl, rfl, rfl, rfl⟩
  · intro h1 h2 h3 h4
    unfold sch_gpio_probe_variant
    rw [if_neg h1, if_neg h2, if_neg h3, if_neg h4]
  · intro r hr
    unfold sch_gpio_probe_variant at hr
    have key : (r.1.resume_base, r.1.ngpio) ∈ [(10, 14), (5, 14), (21, 30), (2, 8)] := by
      split at hr
      · cases hr
        simp
      · split at hr
        · cases hr
          simp
        · split at hr
          · cases hr
            simp
          · split at hr
            · cases hr
              simp
            · cases hr
    have hcases : (r.1.resume_base = 10 ∧ r.1.ngpio = 14)
        ∨ (r.1.resume_base = 5 ∧ r.1.ngpio = 14)
        ∨ (r.1.resume_base = 21 ∧ r.1.ngpio = 30)
        ∨ (r.1.resume_base = 2 ∧ r.1.ngpio = 8) := by
      simpa using key
    refine ⟨?_, Nat.zero_le _, ?_, ?_, key⟩
    · unfold controller_inv MAX_GPIO
      omega
    · omega
    · omega

/-- Witness for C18: the identifiers of `<linux/pci_ids.h>`; the Quark X1000
identifier selects the layout (2, 8) and the identifier 0 is refused. -/
theorem probe_variant_layouts_witness :
    case_labels_distinct linux_pci_ids
    ∧ (∃ r, sch_gpio_probe_variant linux_pci_ids plain devm_kzalloc quiet 0x095e
          = Except.ok r
        ∧ r.1.resume_base = 2 ∧ r.1.ngpio = 8 ∧ r.1.core_base = 0)
    ∧ sch_gpio_probe_variant linux_pci_ids plain devm_kzalloc quiet 0
        = Except.error (-ENODEV)
    ∧ controller_inv { devm_kzalloc with core_base := 0, resume_base := 2, ngpio := 8 } :=
  ⟨by decide,
   (probe_variant_layouts linux_pci_ids plain devm_kzalloc quiet 0x095e
      (by decide)).2.2.2.1 (by decide),
   (probe_variant_layouts linux_pci_ids plain devm_kzalloc quiet 0
      (by decide)).2.2.2.2.1 (by decide) (by decide) (by decide) (by decide),
   ((probe_variant_layouts linux_pci_ids plain devm_kzalloc quiet 0x095e
      (by decide)).2.2.2.2.2
      ({ devm_kzalloc with core_base := 0, resume_base := 2, ngpio := 8 }, quiet)
      rfl).1⟩

/-! ## Resume write sequence: theorems -/

/-- A 32-bit write leaves every port outside the four written as it was. -/
theorem mem_outl_other (w1c : Nat → Bool) (value port : Nat) (s : Ports) (q : Nat)
    (h : q < port ∨ port + 4 ≤ q) : (outl w1c value port s).mem q = s.mem q := by
  unfold outl store
  simp only []
  rw [if_neg (by omega), if_neg (by omega), if_neg (by omega), if_neg (by omega)]

/-- A 32-bit read is below `2 ^ 32`. -/
theorem inl_lt (s : Ports) (port : Nat) : inl s port < 2 ^ 32 := by
  have b0 : inb s port < 256 := Nat.mod_lt _ (by decide)
  have b1 : inb s (port + 1) < 256 := Nat.mod_lt _ (by decide)
  have b2 : inb s (port + 2) < 256 := Nat.mod_lt _ (by decide)
  have b3 : inb s (port + 3) < 256 := Nat.mod_lt _ (by decide)
  unfold inl
  omega

/-- C19: `sch_gpio_suspend_sys_noirq` performs no port write, and the port
writes of the following `sch_gpio_resume_sys_noirq` are exactly five 32-bit
writes, to `GEN`, `GIO`, `GLV`, `GSMI`, `GNMIEN` in this order (the order of
capture), each with the value read from that register at suspend; every port
outside these five registers holds what it held before. -/
theorem resume_writes_snapshot (w1c : Nat → Bool) (sch : sch_gpio) (s : Ports) :
    (sch_gpio_suspend_sys_noirq sch s).2.2.log = s.log
    ∧ (sch_gpio_suspend_sys_noirq sch s).2.2.mem = s.mem
    ∧ (sch_gpio_suspend_sys_noirq sch s).2.1.context.gen = inl s (sch.iobase + GEN)
    ∧ (sch_gpio_suspend_sys_noirq sch s).2.1.context.gio = inl s (sch.iobase + GIO)
    ∧ (sch_gpio_suspend_sys_noirq sch s).2.1.context.glvl = inl s (sch.iobase + GLV)
    ∧ (sch_gpio_suspend_sys_noirq sch s).2.1.context.gsmi = inl s (sch.iobase + GSMI)
    ∧ (sch_gpio_suspend_sys_noirq sch s).2.1.context.gnmien
        = inl s (sch.iobase + GNMIEN)
    ∧ (sch_gpio_resume_sys_noirq w1c (sch_gpio_suspend_sys_noirq sch s).2.1
        (sch_gpio_suspend_sys_noirq sch s).2.2).2.2.log
        = s.log ++
          [Event.outl (inl s (sch.iobase + GEN)) (sch.iobase + GEN),
           Event.outl (inl s (sch.iobase + GIO)) (sch.iobase + GIO),
           Event.outl (inl s (sch.iobase + GLV)) (sch.iobase + GLV),
           Event.outl (inl s (sch.iobase + GSMI)) (sch.iobase + GSMI),
           Event.outl (inl s (sch.iobase + GNMIEN)) (sch.iobase + GNMIEN)]
    ∧ (∀ q, (∀ reg, reg ∈ tracked → q < sch.iobase + reg ∨ sch.iobase + reg + 4 ≤ q) →
        (sch_gpio_resume_sys_noirq w1c (sch_gpio_suspend_sys_noirq sch s).2.1
          (sch_gpio_suspend_sys_noirq sch s).2.2).2.2.mem q = s.mem q) := by
  refine ⟨rfl, rfl, rfl, rfl, rfl, rfl, rfl, ?_, ?_⟩
  · rw [resume_log]
    show s.log ++
        [Event.outl (inl s (sch.iobase + GEN) % 2 ^ 32) (sch.iobase + GEN),
         Event.outl (inl s (sch.iobase + GIO) % 2 ^ 32) (sch.iobase + GIO),
         Event.outl (inl s (sch.iobase + GLV) % 2 ^ 32) (sch.iobase + GLV),
         Event.outl (inl s (sch.iobase + GSMI) % 2 ^ 32) (sch.iobase + GSMI),
         Event.outl (inl s (sch.iobase + GNMIEN) % 2 ^ 32) (sch.iobase + GNMIEN)] = _
    rw [Nat.mod_eq_of_lt (inl_lt s _), Nat.mod_eq_of_lt (inl_lt s _),
      Nat.mod_eq_of_lt (inl_lt s _), Nat.mod_eq_of_lt (inl_lt s _),
      Nat.mod_eq_of_lt (inl_lt s _)]
  · intro q hq
    have q0 := hq GEN (by decide)
    have q1 := hq GIO (by decide)
    have q2 := hq GLV (by decide)
    have q3 := hq GSMI (by decide)
    have q4 := hq GNMIEN (by decide)
    show (outl w1c _ (sch.iobase + GNMIEN) (outl w1c _ (sch.iobase + GSMI)
      (outl w1c _ (sch.iobase + GLV) (outl w1c _ (sch.iobase + GIO)
        (outl w1c _ (sch.iobase + GEN) s))))).mem q = s.mem q
    rw [mem_outl_other w1c _ _ _ q q4, mem_outl_other w1c _ _ _ q q3,
      mem_outl_other w1c _ _ _ q q2, mem_outl_other w1c _ _ _ q q1,
      mem_outl_other w1c _ _ _ q q0]

/-- Witness for C19: on `sch_lpc` the port `iobase + GTS`, outside the five
tracked registers, holds after suspend and resume what it held before. -/
theorem resume_writes_snapshot_witness :
    (sch_gpio_resume_sys_noirq plain (sch_gpio_suspend_sys_noirq sch_lpc live).2.1
        (sch_gpio_suspend_sys_noirq sch_lpc live).2.2).2.2.mem (0x1000 + GTS)
      = live.mem (0x1000 + GTS) :=
  (resume_writes_snapshot plain sch_lpc live).2.2.2.2.2.2.2.2 (0x1000 + GTS)
    (by decide)

/-! ## Single-bit read-modify-write: theorems -/

/-- C20: over plain byte memory `sch_gpio_reg_wrbit` performs exactly one port
write, of a byte `b` to the port `iobase + offset` it read from: bit
`sch_gpio_bit(pin)` of `b` is set exactly when `val` is non-zero and the other
seven bits are those read; no other port changes, the port written holds `b`,
and a following `sch_gpio_reg_rdbit` of the same pin and register returns 1
when `val` is non-zero and 0 otherwise. The port is
`iobase + sch_gpio_offset(pin, reg)` whenever that offset fits the
`unsigned short` it is stored in. -/
theorem reg_wrbit_single_bit (sch : sch_gpio) (s : Ports) (pin reg : Nat)
    (val : Int) :
    (∃ b, b < 256
        ∧ (sch_gpio_reg_wrbit plain sch s pin reg val).log
            = s.log ++ [Event.outb b (reg_port sch pin reg)]
        ∧ b.testBit (sch_gpio_bit sch pin) = decide (val ≠ 0)
        ∧ (∀ j, j ≠ sch_gpio_bit sch pin →
            b.testBit j = (inb s (reg_port sch pin reg)).testBit j)
        ∧ inb (sch_gpio_reg_wrbit plain sch s pin reg val) (reg_port sch pin reg) = b)
    ∧ (∀ q, q ≠ reg_port sch pin reg →
        (sch_gpio_reg_wrbit plain sch s pin reg val).mem q = s.mem q)
    ∧ sch_gpio_reg_rdbit sch (sch_gpio_reg_wrbit plain sch s pin reg val) pin reg
        = (if val ≠ 0 then 1 else 0)
    ∧ (sch_gpio_offset sch pin reg < 2 ^ 16 →
        reg_port sch pin reg = sch.iobase + sch_gpio_offset sch pin reg) := by
  obtain ⟨b, hb, hbit, hoth, e⟩ := sch_gpio_reg_wrbit_eq plain sch s pin reg val
  refine ⟨⟨b, hb, ?_, hbit, hoth, ?_⟩, ?_, ?_, ?_⟩
  · rw [e, log_outb, Nat.mod_eq_of_lt hb]
  · rw [e, inb_outb_same plain b _ s rfl, Nat.mod_eq_of_lt hb]
  · intro q hq
    rw [e, mem_outb_other plain b _ s q hq]
  · exact sch_gpio_reg_rdbit_wrbit plain sch s pin reg val rfl
  · intro h
    unfold reg_port
    rw [Nat.mod_eq_of_lt h]

/-- Witness for C20: pin 12 of `sch_lpc`, register base `GGPE`, value 1. -/
theorem reg_wrbit_single_bit_witness :
    (sch_gpio_reg_wrbit plain sch_lpc live 12 GGPE 1).mem (0x1000 + GTS)
      = live.mem (0x1000 + GTS)
    ∧ reg_port sch_lpc 12 GGPE = sch_lpc.iobase + sch_gpio_offset sch_lpc 12 GGPE :=
  ⟨(reg_wrbit_single_bit sch_lpc live 12 GGPE 1).2.1 (0x1000 + GTS) (by decide),
   (reg_wrbit_single_bit sch_lpc live 12 GGPE 1).2.2.2 (by decide)⟩

/-! ## No aliasing between pins and between registers: theorems -/

/-- On a controller with `resume_base ≤ ngpio ≤ 64`, two pins below `ngpio`
with the same port and the same bit for one register base are the same pin. -/
theorem reg_port_bit_injective (sch : sch_gpio) (p q k : Nat)
    (hinv : controller_inv sch) (hp : p < sch.ngpio) (hq : q < sch.ngpio)
    (hport : reg_port sch p k = reg_port sch q k)
    (hbit : sch_gpio_bit sch p = sch_gpio_bit sch q) : p = q := by
  obtain ⟨h1, h2⟩ := hinv
  unfold MAX_GPIO at h2
  unfold reg_port sch_gpio_offset at hport
  unfold sch_gpio_bit at hbit
  by_cases a : p ≥ sch.resume_base
  · by_cases b : q ≥ sch.resume_base
    · rw [if_pos a, if_pos b] at hport hbit
      omega
    · rw [if_pos a, if_neg b] at hport hbit
      omega
  · by_cases b : q ≥ sch.resume_base
    · rw [if_neg a, if_pos b] at hport hbit
      omega
    · rw [if_neg a, if_neg b] at hport hbit
      omega

/-- On a controller with `resume_base ≤ ngpio ≤ 64`, two pins below `ngpio`
with the same offset and the same bit for one register base are the same
pin. -/
theorem offset_bit_injective (sch : sch_gpio) (p q k : Nat)
    (hinv : controller_inv sch) (hp : p < sch.ngpio) (hq : q < sch.ngpio)
    (hoff : sch_gpio_offset sch p k = sch_gpio_offset sch q k)
    (hbit : sch_gpio_bit sch p = sch_gpio_bit sch q) : p = q := by
  refine reg_port_bit_injective sch p q k hinv hp hq ?_ hbit
  unfold reg_port
  rw [hoff]

/-- C21: over plain byte memory, on every layout with
`resume_base ≤ ngpio ≤ 64` and for pins `p`, `q` below `ngpio`: when `p ≠ q`,
`sch_gpio_get(q)` after `sch_gpio_set(p, v)` returns what it returned before;
and for every register base the pair (`sch_gpio_offset`, `sch_gpio_bit`) of
`p` equals that of `q` only when `p = q`. -/
theorem set_keeps_other_pins (sch : sch_gpio) (s : Ports) (p q : Nat) (v : Int)
    (hinv : controller_inv sch) (hp : p < sch.ngpio) (hq : q < sch.ngpio) :
    (p ≠ q →
        sch_gpio_get sch (sch_gpio_set plain sch s p v) q = sch_gpio_get sch s q)
    ∧ (∀ k, (sch_gpio_offset sch p k, sch_gpio_bit sch p)
          = (sch_gpio_offset sch q k, sch_gpio_bit sch q) → p = q) := by
  constructor
  · intro hne
    unfold sch_gpio_get sch_gpio_set
    by_cases hport : reg_port sch q GLV = reg_port sch p GLV
    · have hbit : sch_gpio_bit sch q ≠ sch_gpio_bit sch p := fun hb =>
        hne (reg_port_bit_injective sch q p GLV hinv hq hp hport hb).symm
      obtain ⟨b, hb, _, hoth, e⟩ := sch_gpio_reg_wrbit_eq plain sch s p GLV v
      rw [sch_gpio_reg_rdbit_eq, sch_gpio_reg_rdbit_eq]
      show (if (inb (sch_gpio_reg_wrbit plain sch s p GLV v)
              (reg_port sch q GLV)).testBit (sch_gpio_bit sch q) then (1 : Int) else 0)
          = if (inb s (reg_port sch q GLV)).testBit (sch_gpio_bit sch q) then 1 else 0
      rw [e, hport, inb_outb_same plain b _ s rfl, Nat.mod_eq_of_lt hb,
        hoth _ hbit]
    · exact sch_gpio_reg_rdbit_wrbit_other plain sch s q GLV p GLV v hport
  · intro k hpair
    have h1 := congrArg Prod.fst hpair
    have h2 := congrArg Prod.snd hpair
    exact offset_bit_injective sch p q k hinv hp hq h1 h2

/-- Witness for C21: pins 3 and 7 of `sch_lpc` share the `GLV` byte; setting
pin 3 leaves the value read for pin 7. -/
theorem set_keeps_other_pins_witness :
    reg_port sch_lpc 3 GLV = reg_port sch_lpc 7 GLV
    ∧ sch_gpio_get sch_lpc (sch_gpio_set plain sch_lpc live 3 1) 7
        = sch_gpio_get sch_lpc live 7
    ∧ sch_gpio_get sch_lpc (sch_gpio_set plain sch_lpc live 3 0) 7
        = sch_gpio_get sch_lpc live 7 :=
  ⟨by decide,
   (set_keeps_other_pins sch_lpc live 3 7 1 (by decide) (by decide) (by decide)).1
      (by decide),
   (set_keeps_other_pins sch_lpc live 3 7 0 (by decide) (by decide) (by decide)).1
      (by decide)⟩

/-- Every per-pin register base is a multiple of 4 not above `GTS = 0x1C`. -/
theorem register_bases_aligned (k : Nat) (hk : k ∈ register_bases) :
    k % 4 = 0 ∧ k ≤ 0x1C := by
  simp only [register_bases, List.mem_cons, List.mem_singleton, List.not_mem_nil,
    or_false, GEN, GIO, GLV, GTPE, GTNE, GGPE, GSMI, GTS] at hk
  omega

/-- On each supported layout no well holds more than 32 pins. -/
theorem supported_layouts_wells (sch : sch_gpio)
    (hlay : (sch.resume_base, sch.ngpio) ∈ supported_layouts) :
    sch.resume_base ≤ 32 ∧ sch.ngpio ≤ sch.resume_base + 32
      ∧ sch.resume_base ≤ sch.ngpio := by
  simp only [supported_layouts, List.mem_cons, List.mem_singleton, List.not_mem_nil,
    or_false, Prod.mk.injEq] at hlay
  omega

/-- C22: on each of the four layouts `sch_gpio_probe` configures, for pins `p`,
`q` below `ngpio` and register bases `k`, `k2` among `GEN` .. `GTS`,
`sch_gpio_offset(p, k)` lies in the 4-byte window of `k` in the well of `p`
(`k .. k + 3` in the core well, `k + 0x20 .. k + 0x23` in the resume well), and
equal (offset, bit) pairs for (`p`, `k`) and (`q`, `k2`) force `p = q` and
`k = k2`. -/
theorem no_aliasing_supported_layouts (sch : sch_gpio) (p q k k2 : Nat)
    (hlay : (sch.resume_base, sch.ngpio) ∈ supported_layouts)
    (hp : p < sch.ngpio) (hq : q < sch.ngpio)
    (hk : k ∈ register_bases) (hk2 : k2 ∈ register_bases) :
    (p < sch.resume_base →
        k ≤ sch_gpio_offset sch p k ∧ sch_gpio_offset sch p k ≤ k + 3)
    ∧ (sch.resume_base ≤ p →
        k + 0x20 ≤ sch_gpio_offset sch p k ∧ sch_gpio_offset sch p k ≤ k + 0x23)
    ∧ ((sch_gpio_offset sch p k, sch_gpio_bit sch p)
          = (sch_gpio_offset sch q k2, sch_gpio_bit sch q) → p = q ∧ k = k2) := by
  obtain ⟨w1, w2, w3⟩ := supported_layouts_wells sch hlay
  obtain ⟨a1, a2⟩ := register_bases_aligned k hk
  obtain ⟨b1, b2⟩ := register_bases_aligned k2 hk2
  refine ⟨?_, ?_, ?_⟩
  · intro h
    unfold sch_gpio_offset
    rw [if_neg (by omega)]
    omega
  · intro h
    unfold sch_gpio_offset
    rw [if_pos (by omega)]
    omega
  · intro hpair
    have hoff := congrArg Prod.fst hpair
    have hbit := congrArg Prod.snd hpair
    simp only [] at hoff hbit
    unfold sch_gpio_offset at hoff
    unfold sch_gpio_bit at hbit
    by_cases a : p ≥ sch.resume_base
    · by_cases b : q ≥ sch.resume_base
      · rw [if_pos a, if_pos b] at hoff hbit
        omega
      · rw [if_pos a, if_neg b] at hoff hbit
        omega
    · by_cases b : q ≥ sch.resume_base
      · rw [if_neg a, if_pos b] at hoff hbit
        omega
      · rw [if_neg a, if_neg b] at hoff hbit
        omega

/-- Witness for C22: on the Centerton layout (21, 30), pin 20 with `GLV` lies in
the core window and pin 29 with `GTS` in the resume window. -/
theorem no_aliasing_supported_layouts_witness :
    (GLV ≤ sch_gpio_offset sch_centerton 20 GLV
      ∧ sch_gpio_offset sch_centerton 20 GLV ≤ GLV + 3)
    ∧ (GTS + 0x20 ≤ sch_gpio_offset sch_centerton 29 GTS
      ∧ sch_gpio_offset sch_centerton 29 GTS ≤ GTS + 0x23)
    ∧ ((20 : Nat) = 20 ∧ GLV = GLV) :=
  ⟨(no_aliasing_supported_layouts sch_centerton 20 29 GLV GTS
      (by decide) (by decide) (by decide) (by decide) (by decide)).1 (by decide),
   (no_aliasing_supported_layouts sch_centerton 29 20 GTS GLV
      (by decide) (by decide) (by decide) (by decide) (by decide)).2.1 (by decide),
   (no_aliasing_supported_layouts sch_centerton 20 20 GLV GLV
      (by decide) (by decide) (by decide) (by decide) (by decide)).2.2 rfl⟩

end GpioSch
